import Mathlib

/-!
Verification of the KHR extension mechanism of a glTF reader/writer
(`GLTFSDK/Source/ExtensionsKHR.cpp`).

The embedding identifies the raw JSON text strings passed around by the code
(`ExtensionPair::value`, `glTFProperty::extras`, the values of the
unregistered-extension map) with their parsed JSON trees: the code always
produces such a string by printing a JSON value and always consumes it by
re-parsing it, so print/parse is the identity on the trees.  JSON numbers are
modelled as exact rationals; the only operations the code performs on its
floating-point fields are copies and (in)equality comparisons against
constants, which the rational model reproduces exactly.
-/

set_option maxHeartbeats 1000000

/-- JSON values (rapidjson `Value`), with numbers as exact rationals. -/
inductive Json : Type where
  | null : Json
  | bool : Bool → Json
  | num : ℚ → Json
  | str : String → Json
  | arr : List Json → Json
  | obj : List (String × Json) → Json

mutual

/-- Boolean equality of JSON trees (rapidjson compares values structurally;
raw-text equality of canonically printed strings is tree equality). -/
def Json.beq : Json → Json → Bool
  | .null, .null => true
  | .bool a, .bool b => a == b
  | .num a, .num b => a == b
  | .str a, .str b => a == b
  | .arr xs, .arr ys => Json.beqList xs ys
  | .obj ms, .obj ns => Json.beqMembers ms ns
  | _, _ => false

/-- Element-wise equality of JSON arrays. -/
def Json.beqList : List Json → List Json → Bool
  | [], [] => true
  | x :: xs, y :: ys => Json.beq x y && Json.beqList xs ys
  | _, _ => false

/-- Element-wise equality of JSON object member lists. -/
def Json.beqMembers : List (String × Json) → List (String × Json) → Bool
  | [], [] => true
  | (n, x) :: xs, (m, y) :: ys => n == m && Json.beq x y && Json.beqMembers xs ys
  | _, _ => false

end

mutual

/-- `Json.beq` is reflexive. -/
theorem Json.beq_refl : ∀ j : Json, Json.beq j j = true
  | .null => rfl
  | .bool b => by simp [Json.beq]
  | .num q => by simp [Json.beq]
  | .str s => by simp [Json.beq]
  | .arr xs => by simpa [Json.beq] using Json.beqList_refl xs
  | .obj ms => by simpa [Json.beq] using Json.beqMembers_refl ms

/-- `Json.beqList` is reflexive. -/
theorem Json.beqList_refl : ∀ xs : List Json, Json.beqList xs xs = true
  | [] => rfl
  | x :: xs => by simp [Json.beqList, Json.beq_refl x, Json.beqList_refl xs]

/-- `Json.beqMembers` is reflexive. -/
theorem Json.beqMembers_refl : ∀ ms : List (String × Json), Json.beqMembers ms ms = true
  | [] => rfl
  | (n, x) :: ms => by
      simp [Json.beqMembers, Json.beq_refl x, Json.beqMembers_refl ms]

end

/-- Looks up the first member with the given name in a JSON object member
list (rapidjson `FindMember`; member iteration is in document order). -/
def findMember (name : String) (ms : List (String × Json)) : Option Json :=
  (ms.find? (fun m => m.1 = name)).map (fun m => m.2)

/-- The error channel: each constructor corresponds to one `throw` site of
the code (`GLTFException` / `DocumentException` messages), plus the two
rapidjson/STL failure modes the code can reach (a failed rapidjson type
assertion, and an out-of-bounds `std::vector` index). -/
inductive Err : Type where
  | noHandler (name : String) : Err
  | noSerializerHandler : Err
  | collision (name : String) : Err
  | notDeclared (name : String) : Err
  | attributesNotObject : Err
  | attributeNotInt (name : String) : Err
  | wrongSize (member : String) : Err
  | missingRequired (member : String) : Err
  | indexNotFound (id : String) : Err
  | typeAssert : Err
  | outOfBounds : Err
deriving DecidableEq

/-- The runtime kind of an extensible entity (C++ `typeid` of the node passed
to `ParseExtensions` / `SerializePropertyExtensions`): the three owner kinds
the KHR registries mention, and the four extension classes themselves, which
act as owners when their own base `glTFProperty` is parsed or serialized. -/
inductive OwnerKind : Type where
  | material
  | meshPrimitive
  | textureInfo
  | pbrSpecularGlossiness
  | unlit
  | dracoMeshCompression
  | textureTransform
deriving DecidableEq

/-- The closed set of extension variants (C++ concrete `Extension`
subclasses; the spec fixes the set to these four). -/
inductive ExtVariant : Type where
  | pbrSpecularGlossiness
  | unlit
  | dracoMeshCompression
  | textureTransform
deriving DecidableEq

/-- `GetDouble` on a rapidjson value: a number yields its value, anything
else fails the rapidjson type assertion. -/
def Json.getDouble : Json → Except Err ℚ
  | .num q => .ok q
  | _ => .error .typeAssert

/-- `GetUint` on a rapidjson value (also `Get<uint32_t>` / `Get<size_t>` on
in-range values): a non-negative integer below `2^32` yields itself,
anything else fails the type assertion. -/
def Json.getUIntValue : Json → Except Err ℕ
  | .num q =>
      if q.den = 1 ∧ 0 ≤ q.num ∧ q.num < 2 ^ 32 then .ok q.num.toNat
      else .error .typeAssert
  | _ => .error .typeAssert

/-- `IsInt` on a rapidjson value: true exactly for integers representable as
a signed 32-bit `int`. -/
def Json.isInt : Json → Bool
  | .num q => q.den = 1 && -(2 ^ 31) ≤ q.num && q.num < 2 ^ 31
  | _ => false

/-- The `uint32_t` read back by `Get<uint32_t>` after an `IsInt` check
passed: non-negative values are returned as-is and negative values are
re-read from the union with two's-complement wraparound (release-build
rapidjson semantics; the `IsUint` assertion is compiled out). -/
def uint32OfInt (i : ℤ) : ℕ := (i % (2 ^ 32 : ℤ)).toNat

/-- `GetObject` / member iteration on a rapidjson value: requires an object. -/
def Json.asObjMembers : Json → Except Err (List (String × Json))
  | .obj ms => .ok ms
  | _ => .error .typeAssert

/-- `Begin()`/`End()`/`Size()` array access on a rapidjson value: requires an
array. -/
def Json.asArrElems : Json → Except Err (List Json)
  | .arr xs => .ok xs
  | _ => .error .typeAssert

/-- `GetMemberValueOrDefault<float>`: the member's numeric value if present,
the default otherwise. -/
def getMemberDoubleOrDefault (ms : List (String × Json)) (name : String) (dflt : ℚ) :
    Except Err ℚ :=
  match findMember name ms with
  | some j => j.getDouble
  | none => .ok dflt

/-- `GetMemberValueOrDefault<size_t> / <unsigned>`: the member's unsigned
value if present, the default otherwise. -/
def getMemberUIntOrDefault (ms : List (String × Json)) (name : String) (dflt : ℕ) :
    Except Err ℕ :=
  match findMember name ms with
  | some j => j.getUIntValue
  | none => .ok dflt

/-- `std::vector::operator[]`: in-bounds indexing yields the element; an
out-of-bounds index is undefined behaviour in the code, modelled as a
distinguished error. -/
def vecAt (l : List ℚ) (i : ℕ) : Except Err ℚ :=
  match l.get? i with
  | some x => .ok x
  | none => .error .outOfBounds

/-- `GetDouble` over every element of a JSON array, in order
(the `Begin()`/`End()` copy loops of the deserializers). -/
def listGetDoubles : List Json → Except Err (List ℚ)
  | [] => .ok []
  | x :: xs => do
      let q ← x.getDouble
      let qs ← listGetDoubles xs
      .ok (q :: qs)

mutual

/-- Modelled from the spec: the `glTFProperty` base class (its header is not
part of the shown core).  Per the spec's data model, an extensible entity
owns optional opaque `extras` text, a name-to-raw-text map of unregistered
extensions (kept in insertion order), and at most one registered `Extension`
instance per variant (C++ stores them keyed by `typeid`; the closed variant
set makes that four optional slots). -/
inductive GLTFProperty : Type where
  | mk :
      (extras : Option Json) →
      (unregistered : List (String × Json)) →
      (regPbr : Option PBRSpecularGlossiness) →
      (regUnlit : Option Unlit) →
      (regDraco : Option DracoMeshCompression) →
      (regTexTransform : Option TextureTransform) →
      GLTFProperty

/-- Modelled from the spec: a `TextureInfo` (texture reference): the id of
the referenced texture (empty means absent), an optional texture-coordinate
set selector defaulting to 0, and the extensible-entity base. -/
inductive TextureInfo : Type where
  | mk :
      (textureId : String) →
      (texCoord : ℕ) →
      (prop : GLTFProperty) →
      TextureInfo

/-- `KHR::MaterialExtension::PBRSpecularGlossiness`: diffuse factor
(4-channel colour), diffuse texture, specular factor (3-channel colour),
glossiness factor, specular-glossiness texture, plus the `glTFProperty`
base. -/
inductive PBRSpecularGlossiness : Type where
  | mk :
      (diffuseFactor : ℚ × ℚ × ℚ × ℚ) →
      (diffuseTexture : TextureInfo) →
      (specularFactor : ℚ × ℚ × ℚ) →
      (glossinessFactor : ℚ) →
      (specularGlossinessTexture : TextureInfo) →
      (prop : GLTFProperty) →
      PBRSpecularGlossiness

/-- `KHR::MaterialExtension::Unlit`: no fields beyond the base. -/
inductive Unlit : Type where
  | mk : (prop : GLTFProperty) → Unlit

/-- `KHR::MeshPrimitiveExtension::DracoMeshCompression`: a buffer-view
reference (empty string means absent) and a semantic-name to attribute-id
map (C++ `std::unordered_map<std::string, uint32_t>`, modelled as a list
with unique keys in insertion order). -/
inductive DracoMeshCompression : Type where
  | mk :
      (bufferViewId : String) →
      (attributes : List (String × ℕ)) →
      (prop : GLTFProperty) →
      DracoMeshCompression

/-- `KHR::TextureInfoExtension::TextureTransform`: offset, rotation, scale,
texCoord override, plus the base. -/
inductive TextureTransform : Type where
  | mk :
      (offset : ℚ × ℚ) →
      (rotation : ℚ) →
      (scale : ℚ × ℚ) →
      (texCoord : ℕ) →
      (prop : GLTFProperty) →
      TextureTransform

end

/-- A polymorphic `Extension` value: one of the four concrete subclasses. -/
inductive Extension : Type where
  | pbrSpecularGlossiness : PBRSpecularGlossiness → Extension
  | unlit : Unlit → Extension
  | dracoMeshCompression : DracoMeshCompression → Extension
  | textureTransform : TextureTransform → Extension

/-- The runtime variant tag of an `Extension` (C++ `typeid`). -/
def Extension.variant : Extension → ExtVariant
  | .pbrSpecularGlossiness _ => .pbrSpecularGlossiness
  | .unlit _ => .unlit
  | .dracoMeshCompression _ => .dracoMeshCompression
  | .textureTransform _ => .textureTransform

/-- The default-constructed `glTFProperty`: no extras, no extensions. -/
def emptyProp : GLTFProperty := .mk none [] none none none none

/-- The default-constructed `TextureInfo`: empty texture id, texCoord 0. -/
def defaultTexInfo : TextureInfo := .mk "" 0 emptyProp

/-- The default-constructed `PBRSpecularGlossiness` (constructor at
`ExtensionsKHR.cpp:158`): factors `(1,1,1,1)`, `(1,1,1)`, glossiness 1. -/
def defaultPBRSpecGloss : PBRSpecularGlossiness :=
  .mk (1, 1, 1, 1) defaultTexInfo (1, 1, 1) 1 defaultTexInfo emptyProp

/-- The default-constructed `TextureTransform` (constructor at
`ExtensionsKHR.cpp:406`): offset `(0,0)`, rotation 0, scale `(1,1)`,
texCoord 0. -/
def defaultTextureTransform : TextureTransform :=
  .mk (0, 0) 0 (1, 1) 0 emptyProp

/-- The `extras` field of a property. -/
def GLTFProperty.extras : GLTFProperty → Option Json
  | .mk e _ _ _ _ _ => e

/-- The unregistered-extensions map of a property. -/
def GLTFProperty.unregistered : GLTFProperty → List (String × Json)
  | .mk _ u _ _ _ _ => u

/-- The registered `PBRSpecularGlossiness` slot. -/
def GLTFProperty.regPbr : GLTFProperty → Option PBRSpecularGlossiness
  | .mk _ _ p _ _ _ => p

/-- The registered `Unlit` slot. -/
def GLTFProperty.regUnlit : GLTFProperty → Option Unlit
  | .mk _ _ _ u _ _ => u

/-- The registered `DracoMeshCompression` slot. -/
def GLTFProperty.regDraco : GLTFProperty → Option DracoMeshCompression
  | .mk _ _ _ _ d _ => d

/-- The registered `TextureTransform` slot. -/
def GLTFProperty.regTexTransform : GLTFProperty → Option TextureTransform
  | .mk _ _ _ _ _ t => t

/-- `glTFProperty::SetExtension`: attach a typed extension, replacing any
prior instance of the same variant. -/
def GLTFProperty.SetExtension (p : GLTFProperty) (e : Extension) : GLTFProperty :=
  match p with
  | .mk ex u rp ru rd rt =>
      match e with
      | .pbrSpecularGlossiness x => .mk ex u (some x) ru rd rt
      | .unlit x => .mk ex u rp (some x) rd rt
      | .dracoMeshCompression x => .mk ex u rp ru (some x) rt
      | .textureTransform x => .mk ex u rp ru rd (some x)

/-- `glTFProperty::HasUnregisteredExtension`: is the name a key of the
unregistered-extensions map? -/
def GLTFProperty.HasUnregisteredExtension (p : GLTFProperty) (name : String) : Bool :=
  p.unregistered.any (fun m => m.1 = name)

/-- `std::unordered_map::emplace` into the unregistered map: inserts only
when the key is not yet present (first write wins). -/
def GLTFProperty.emplaceUnregistered (p : GLTFProperty) (name : String) (v : Json) :
    GLTFProperty :=
  match p with
  | .mk ex u rp ru rd rt =>
      if u.any (fun m => m.1 = name) then .mk ex u rp ru rd rt
      else .mk ex (u ++ [(name, v)]) rp ru rd rt

/-- `glTFProperty::GetExtensions`: the registered extensions as a list (the
C++ set is unordered; the model enumerates the variant slots in a fixed
order). -/
def GLTFProperty.GetRegistered (p : GLTFProperty) : List Extension :=
  (p.regPbr.map Extension.pbrSpecularGlossiness).toList ++
  (p.regUnlit.map Extension.unlit).toList ++
  (p.regDraco.map Extension.dracoMeshCompression).toList ++
  (p.regTexTransform.map Extension.textureTransform).toList

/-- The `textureId` field of a texture reference. -/
def TextureInfo.textureId : TextureInfo → String
  | .mk id _ _ => id

/-- The `texCoord` field of a texture reference. -/
def TextureInfo.texCoord : TextureInfo → ℕ
  | .mk _ tc _ => tc

/-- The base property of a texture reference. -/
def TextureInfo.prop : TextureInfo → GLTFProperty
  | .mk _ _ p => p

/-- The `bufferViewId` field of a Draco extension. -/
def DracoMeshCompression.bufferViewId : DracoMeshCompression → String
  | .mk bv _ _ => bv

/-- The `attributes` field of a Draco extension. -/
def DracoMeshCompression.attributes : DracoMeshCompression → List (String × ℕ)
  | .mk _ a _ => a

/-- The base property of a Draco extension. -/
def DracoMeshCompression.prop : DracoMeshCompression → GLTFProperty
  | .mk _ _ p => p

/-- The base property of a texture transform. -/
def TextureTransform.prop : TextureTransform → GLTFProperty
  | .mk _ _ _ _ p => p

/-- The `texCoord` field of a texture transform. -/
def TextureTransform.texCoord : TextureTransform → ℕ
  | .mk _ _ _ tc _ => tc

/-- The base property of an unlit extension. -/
def Unlit.prop : Unlit → GLTFProperty
  | .mk p => p

/-- The base property of a specular-glossiness extension. -/
def PBRSpecularGlossiness.prop : PBRSpecularGlossiness → GLTFProperty
  | .mk _ _ _ _ _ p => p

/-- The `diffuseTexture` field of a specular-glossiness extension. -/
def PBRSpecularGlossiness.diffuseTexture : PBRSpecularGlossiness → TextureInfo
  | .mk _ dt _ _ _ _ => dt

/-- The `specularGlossinessTexture` field of a specular-glossiness
extension. -/
def PBRSpecularGlossiness.specularGlossinessTexture : PBRSpecularGlossiness → TextureInfo
  | .mk _ _ _ _ st _ => st

/-- The KHR extension identifiers (`ExtensionsKHR.h` string constants). -/
def PBRSPECULARGLOSSINESS_NAME : String := "KHR_materials_pbrSpecularGlossiness"

/-- The unlit-material extension identifier. -/
def UNLIT_NAME : String := "KHR_materials_unlit"

/-- The Draco-compression extension identifier. -/
def DRACOMESHCOMPRESSION_NAME : String := "KHR_draco_mesh_compression"

/-- The texture-transform extension identifier. -/
def TEXTURETRANSFORM_NAME : String := "KHR_texture_transform"

/-- Modelled from the spec: the slice of the `Document` the extension code
consumes (the full document class is outside the shown core): the indexed
texture and buffer-view collections, as lists of element ids in index order,
and the declared `extensionsUsed` name set. -/
structure Document : Type where
  textures : List String
  bufferViews : List String
  extensionsUsed : List String

/-- An `ExtensionPair`: an extension name together with the (parsed form of
the) raw serialized text of one extension instance. -/
structure ExtensionPair : Type where
  name : String
  value : Json

/-- Modelled from the spec: the deserializer registry (`ExtensionDeserializer`,
declared outside the shown core): an immutable table built by
`AddHandler<TExt, TOwner>(name, fn)`, keyed by extension name and owner
kind; each codec receives the raw JSON and produces an `Extension`.  The
registry hands itself to its codecs, so codecs here close over the registry
they recurse with. -/
structure ExtensionDeserializer : Type where
  handlers : List ((String × OwnerKind) × (Json → Except Err Extension))

/-- `ExtensionDeserializer::HasHandler(name, node)`: an entry exists for the
name and the runtime kind of the owner. -/
def ExtensionDeserializer.HasHandlerFor (d : ExtensionDeserializer)
    (name : String) (k : OwnerKind) : Bool :=
  d.handlers.any (fun h => h.1 = (name, k))

/-- `ExtensionDeserializer::HasHandler(name)`: an entry exists for the name
on any owner kind. -/
def ExtensionDeserializer.HasHandlerName (d : ExtensionDeserializer)
    (name : String) : Bool :=
  d.handlers.any (fun h => h.1.1 = name)

/-- `ExtensionDeserializer::Deserialize(pair, node)`: look up the entry for
the name and the owner's exact runtime kind and run its codec on the raw
JSON; with no exact-kind entry the call fails with a no-handler error. -/
def ExtensionDeserializer.Deserialize (d : ExtensionDeserializer)
    (pair : ExtensionPair) (k : OwnerKind) : Except Err Extension :=
  match d.handlers.find? (fun h => h.1 = (pair.name, k)) with
  | some h => h.2 pair.value
  | none => .error (.noHandler pair.name)

/-- Modelled from the spec: the serializer registry (`ExtensionSerializer`):
an immutable table keyed by extension variant and owner kind, carrying the
registered name and a codec producing the raw JSON of an instance. -/
structure ExtensionSerializer : Type where
  handlers : List ((ExtVariant × OwnerKind) × String × (Extension → Document → Except Err Json))

/-- `ExtensionSerializer::Serialize(extension, property, document)`: look up
the entry for the extension's variant and the owner's runtime kind, recover
the registered name, and run the codec; with no entry the call fails. -/
def ExtensionSerializer.SerializeExt (s : ExtensionSerializer) (e : Extension)
    (k : OwnerKind) (doc : Document) : Except Err ExtensionPair :=
  match s.handlers.find? (fun h => h.1 = (e.variant, k)) with
  | some h => do
      let v ← h.2.2 e doc
      .ok ⟨h.2.1, v⟩
  | none => .error .noSerializerHandler

/-- `FindRequiredMember`: the member's value, or a missing-required-member
error. -/
def findRequiredMember (name : String) (ms : List (String × Json)) : Except Err Json :=
  match findMember name ms with
  | some v => .ok v
  | none => .error (.missingRequired name)

/-- A member-conditional read: apply the reader when the member is present,
fall back otherwise (the `FindMember` / `MemberEnd` pattern of the
deserializers). -/
def memberOrElse {α : Type} (ms : List (String × Json)) (name : String)
    (f : Json → Except Err α) (dflt : Except Err α) : Except Err α :=
  match findMember name ms with
  | some v => f v
  | none => dflt

/-- The `diffuseFactor` copy loop of `DeserializePBRSpecGloss`
(`ExtensionsKHR.cpp:239-244`): copy every array element, then
unconditionally read indices 0-3 — no length validation. -/
def readColor4 (v : Json) : Except Err (ℚ × ℚ × ℚ × ℚ) := do
  let xs ← v.asArrElems
  let l ← listGetDoubles xs
  let a ← vecAt l 0
  let b ← vecAt l 1
  let c ← vecAt l 2
  let dd ← vecAt l 3
  .ok (a, b, c, dd)

/-- The `specularFactor` copy loop of `DeserializePBRSpecGloss`
(`ExtensionsKHR.cpp:258-263`): copy every array element, then
unconditionally read indices 0-2 — no length validation. -/
def readColor3 (v : Json) : Except Err (ℚ × ℚ × ℚ) := do
  let xs ← v.asArrElems
  let l ← listGetDoubles xs
  let a ← vecAt l 0
  let b ← vecAt l 1
  let c ← vecAt l 2
  .ok (a, b, c)

/-- One iteration of the `ParseExtensions` loop (`ExtensionsKHR.cpp:21-31`):
if the registry has a handler for the name on this owner's kind, or a
handler for the name on any owner kind, dispatch (`Deserialize`) and attach
the result with `SetExtension`; otherwise `emplace` the raw pair into the
owner's unregistered-extensions map. -/
def ParseExtensionEntry (d : ExtensionDeserializer) (k : OwnerKind)
    (node : GLTFProperty) (name : String) (child : Json) : Except Err GLTFProperty :=
  if d.HasHandlerFor name k || d.HasHandlerName name then
    (d.Deserialize ⟨name, child⟩ k).map node.SetExtension
  else
    .ok (node.emplaceUnregistered name child)

/-- The `ParseExtensions` loop over the members of the `"extensions"` object
in document order. -/
def ParseExtensionEntries (d : ExtensionDeserializer) (k : OwnerKind) :
    List (String × Json) → GLTFProperty → Except Err GLTFProperty
  | [], node => .ok node
  | (name, child) :: rest, node => do
      let node2 ← ParseExtensionEntry d k node name child
      ParseExtensionEntries d k rest node2

/-- `ParseExtensions` (`ExtensionsKHR.cpp:13`): if the entity's JSON object
has an `"extensions"` member, iterate its members. -/
def ParseExtensions (d : ExtensionDeserializer) (k : OwnerKind)
    (ms : List (String × Json)) (node : GLTFProperty) : Except Err GLTFProperty :=
  match findMember "extensions" ms with
  | some j => do
      let entries ← j.asObjMembers
      ParseExtensionEntries d k entries node
  | none => .ok node

/-- `ParseExtras` (`ExtensionsKHR.cpp:36`): if an `"extras"` member exists,
store its raw text verbatim. -/
def ParseExtras (ms : List (String × Json)) (node : GLTFProperty) : GLTFProperty :=
  match findMember "extras" ms with
  | some j =>
      match node with
      | .mk _ u rp ru rd rt => .mk (some j) u rp ru rd rt
  | none => node

/-- `ParseProperty` (`ExtensionsKHR.cpp:46`): `ParseExtensions` then
`ParseExtras`. -/
def ParseProperty (d : ExtensionDeserializer) (k : OwnerKind)
    (ms : List (String × Json)) (node : GLTFProperty) : Except Err GLTFProperty := do
  let node2 ← ParseExtensions d k ms node
  .ok (ParseExtras ms node2)

/-- `ParseTextureInfo` (`ExtensionsKHR.cpp:52`): requires an `"index"`
member (`FindRequiredMember`), sets `textureId` to the decimal string of its
unsigned value, reads optional `"texCoord"` (default 0), then parses the
base property on the same object. -/
def ParseTextureInfo (d : ExtensionDeserializer) (j : Json) :
    Except Err TextureInfo := do
  let ms ← j.asObjMembers
  let idxVal ← findRequiredMember "index" ms
  let n ← idxVal.getUIntValue
  let tc ← getMemberUIntOrDefault ms "texCoord" 0
  let p ← ParseProperty d .textureInfo ms emptyProp
  .ok (.mk (Nat.repr n) tc p)

/-- `DeserializePBRSpecGloss` (`ExtensionsKHR.cpp:228`): copies a present
`"diffuseFactor"` array element-wise and then unconditionally reads indices
0-3 (no length validation), parses a present `"diffuseTexture"`, does the
same at indices 0-2 for `"specularFactor"`, reads `"glossinessFactor"` with
default 1, parses a present `"specularGlossinessTexture"`, and finally
parses the base property. -/
def DeserializePBRSpecGloss (j : Json) (d : ExtensionDeserializer) :
    Except Err Extension := do
  let ms ← j.asObjMembers
  let df ← memberOrElse ms "diffuseFactor" readColor4
    (.ok (((1 : ℚ), (1 : ℚ), (1 : ℚ), (1 : ℚ))))
  let dt ← memberOrElse ms "diffuseTexture" (fun v => ParseTextureInfo d v)
    (.ok defaultTexInfo)
  let sf ← memberOrElse ms "specularFactor" readColor3
    (.ok (((1 : ℚ), (1 : ℚ), (1 : ℚ))))
  let gf ← getMemberDoubleOrDefault ms "glossinessFactor" 1
  let st ← memberOrElse ms "specularGlossinessTexture" (fun v => ParseTextureInfo d v)
    (.ok defaultTexInfo)
  let p ← ParseProperty d .pbrSpecularGlossiness ms emptyProp
  .ok (.pbrSpecularGlossiness (.mk df dt sf gf st p))

/-- `DeserializeUnlit` (`ExtensionsKHR.cpp:308`): parses only the base
property. -/
def DeserializeUnlit (j : Json) (d : ExtensionDeserializer) :
    Except Err Extension := do
  let ms ← j.asObjMembers
  let p ← ParseProperty d .unlit ms emptyProp
  .ok (.unlit (.mk p))

/-- `std::unordered_map::emplace` for the Draco attribute map: first write
wins on a duplicate semantic name. -/
def emplaceAttr (l : List (String × ℕ)) (name : String) (v : ℕ) : List (String × ℕ) :=
  if l.any (fun m => m.1 = name) then l else l ++ [(name, v)]

/-- The attribute-reading loop of `DeserializeDracoMeshCompression`
(`ExtensionsKHR.cpp:387-396`): each attribute value must pass `IsInt`, and
is then read back with `Get<uint32_t>`. -/
def readDracoAttrs (acc : List (String × ℕ)) :
    List (String × Json) → Except Err (List (String × ℕ))
  | [] => .ok acc
  | (name, v) :: rest =>
      if v.isInt then
        match v with
        | .num q => readDracoAttrs (emplaceAttr acc name (uint32OfInt q.num)) rest
        | _ => .error (.attributeNotInt name)
      else .error (.attributeNotInt name)

/-- `DeserializeDracoMeshCompression` (`ExtensionsKHR.cpp:369`): reads
`"bufferView"` as a decimal string if present (`GetMemberValueAsString`),
requires a present `"attributes"` member to be an object and each attribute
value to pass `IsInt`, then parses the base property. -/
def DeserializeDracoMeshCompression (j : Json) (d : ExtensionDeserializer) :
    Except Err Extension := do
  let ms ← j.asObjMembers
  let bv ←
    match findMember "bufferView" ms with
    | some v => (v.getUIntValue).map Nat.repr
    | none => Except.ok ""
  let attrs ←
    match findMember "attributes" ms with
    | some v =>
        match v with
        | .obj avs => readDracoAttrs [] avs
        | _ => Except.error Err.attributesNotObject
    | none => Except.ok ([] : List (String × ℕ))
  let p ← ParseProperty d .dracoMeshCompression ms emptyProp
  .ok (.dracoMeshCompression (.mk bv attrs p))

/-- `DeserializeTextureTransform` (`ExtensionsKHR.cpp:467`): a present
`"offset"` or `"scale"` array must have size exactly 2 (else a
schema-violation error); its two elements are then copied; `"rotation"`
defaults to 0, `"texCoord"` to 0; finally the base property is parsed. -/
def DeserializeTextureTransform (j : Json) (d : ExtensionDeserializer) :
    Except Err Extension := do
  let ms ← j.asObjMembers
  let off ←
    match findMember "offset" ms with
    | some v => do
        let xs ← v.asArrElems
        if xs.length ≠ 2 then Except.error (Err.wrongSize "offset")
        else do
          let l ← listGetDoubles xs
          let a ← vecAt l 0
          let b ← vecAt l 1
          Except.ok ((a, b) : ℚ × ℚ)
    | none => Except.ok (((0 : ℚ), (0 : ℚ)))
  let rot ← getMemberDoubleOrDefault ms "rotation" 0
  let sc ←
    match findMember "scale" ms with
    | some v => do
        let xs ← v.asArrElems
        if xs.length ≠ 2 then Except.error (Err.wrongSize "scale")
        else do
          let l ← listGetDoubles xs
          let a ← vecAt l 0
          let b ← vecAt l 1
          Except.ok ((a, b) : ℚ × ℚ)
    | none => Except.ok (((1 : ℚ), (1 : ℚ)))
  let tc ← getMemberUIntOrDefault ms "texCoord" 0
  let p ← ParseProperty d .textureTransform ms emptyProp
  .ok (.textureTransform (.mk off rot sc tc p))

/-- `KHR::GetKHRExtensionDeserializer` (`ExtensionsKHR.cpp:142`), one
unrolling: the four `AddHandler` entries, with codecs recursing through the
given inner registry (the C++ registry passes itself to its codecs). -/
def khrDeserializerWith (inner : ExtensionDeserializer) : ExtensionDeserializer :=
  ⟨[((PBRSPECULARGLOSSINESS_NAME, .material), fun j => DeserializePBRSpecGloss j inner),
    ((UNLIT_NAME, .material), fun j => DeserializeUnlit j inner),
    ((DRACOMESHCOMPRESSION_NAME, .meshPrimitive), fun j => DeserializeDracoMeshCompression j inner),
    ((TEXTURETRANSFORM_NAME, .textureInfo), fun j => DeserializeTextureTransform j inner)]⟩

/-- The empty deserializer registry. -/
def emptyDeserializer : ExtensionDeserializer := ⟨[]⟩

/-- The KHR deserializer registry, unrolled to the depth any KHR payload can
use: the only nested typed dispatch the table permits is a
`KHR_texture_transform` inside a texture reference of a
`KHR_materials_pbrSpecularGlossiness`, and a `TextureTransform`'s own base
property can dispatch no further entry, so two levels reproduce the
self-referring C++ registry on every input reachable in the theorems
below. -/
def khrDeserializer : ExtensionDeserializer :=
  khrDeserializerWith (khrDeserializerWith emptyDeserializer)

/-- `IndexedContainer::GetIndex`: the position of the element with the given
id, failing when the id does not resolve. -/
def getIndex (ids : List String) (id : String) : Except Err ℕ :=
  match ids.findIdx? (fun x => x = id) with
  | some n => .ok n
  | none => .error (.indexNotFound id)

/-- `RapidJsonUtils::AddOptionalMemberIndex`: when the id is non-empty,
resolve it in the indexed collection and append the index as a member. -/
def addOptionalMemberIndex (name : String) (ms : List (String × Json))
    (id : String) (ids : List String) : Except Err (List (String × Json)) :=
  if id = "" then .ok ms
  else do
    let n ← getIndex ids id
    .ok (ms ++ [(name, Json.num (n : ℚ))])

/-- A conditionally emitted member (an `AddMember` guarded by an `if`). -/
def optMember (c : Bool) (name : String) (j : Json) : List (String × Json) :=
  if c then [(name, j)] else []

/-- `RapidJsonUtils::ToJsonArray` on a `Color4`. -/
def jsonArray4 (v : ℚ × ℚ × ℚ × ℚ) : Json :=
  .arr [.num v.1, .num v.2.1, .num v.2.2.1, .num v.2.2.2]

/-- `RapidJsonUtils::ToJsonArray` on a `Color3`. -/
def jsonArray3 (v : ℚ × ℚ × ℚ) : Json :=
  .arr [.num v.1, .num v.2.1, .num v.2.2]

/-- `RapidJsonUtils::ToJsonArray` on a `Vector2`. -/
def jsonArray2 (v : ℚ × ℚ) : Json :=
  .arr [.num v.1, .num v.2]

/-- The registered-extension loop of `SerializePropertyExtensions`
(`ExtensionsKHR.cpp:69-87`): for each registered extension, serialize it
through the registry, fail with a name-collision error if the recovered
name is also a key of the owner's unregistered map, fail with an
undeclared-usage error if the name is not in the document's
`extensionsUsed`, and otherwise emit the re-parsed raw text under the
name. -/
def SerializeRegistered (doc : Document) (s : ExtensionSerializer) (k : OwnerKind)
    (p : GLTFProperty) : List Extension → Except Err (List (String × Json))
  | [] => .ok []
  | e :: rest => do
      let pair ← s.SerializeExt e k doc
      if p.HasUnregisteredExtension pair.name then
        .error (.collision pair.name)
      else if !(doc.extensionsUsed.contains pair.name) then
        .error (.notDeclared pair.name)
      else do
        let tail ← SerializeRegistered doc s k p rest
        .ok ((pair.name, pair.value) :: tail)

/-- `SerializePropertyExtensions` (`ExtensionsKHR.cpp:60`): emits an
`"extensions"` member only when the owner has at least one registered or
unregistered extension; registered extensions are emitted first (validated
as above), then the unregistered raw entries with no validation. -/
def SerializePropertyExtensions (doc : Document) (p : GLTFProperty) (k : OwnerKind)
    (ms : List (String × Json)) (s : ExtensionSerializer) :
    Except Err (List (String × Json)) :=
  if p.unregistered.isEmpty && p.GetRegistered.isEmpty then .ok ms
  else do
    let regMs ← SerializeRegistered doc s k p p.GetRegistered
    .ok (ms ++ [("extensions", .obj (regMs ++ p.unregistered))])

/-- `SerializePropertyExtras` (`ExtensionsKHR.cpp:100`): emits `"extras"`
with the stored raw text when non-empty. -/
def SerializePropertyExtras (p : GLTFProperty) (ms : List (String × Json)) :
    List (String × Json) :=
  match p.extras with
  | some e => ms ++ [("extras", e)]
  | none => ms

/-- `SerializeProperty` (`ExtensionsKHR.cpp:111`): extensions then extras. -/
def SerializeProperty (doc : Document) (p : GLTFProperty) (k : OwnerKind)
    (ms : List (String × Json)) (s : ExtensionSerializer) :
    Except Err (List (String × Json)) := do
  let ms2 ← SerializePropertyExtensions doc p k ms s
  .ok (SerializePropertyExtras p ms2)

/-- `SerializeTextureInfo` (`ExtensionsKHR.cpp:117`): emits `"index"` by
resolving the texture id, `"texCoord"` only when non-zero, then the base
property. -/
def SerializeTextureInfo (doc : Document) (ti : TextureInfo)
    (textures : List String) (s : ExtensionSerializer) : Except Err Json := do
  let ms ← addOptionalMemberIndex "index" [] ti.textureId textures
  let ms := ms ++ optMember (ti.texCoord ≠ 0) "texCoord" (.num (ti.texCoord : ℚ))
  let ms ← SerializeProperty doc ti.prop .textureInfo ms s
  .ok (.obj ms)

/-- `SerializePBRSpecGloss` (`ExtensionsKHR.cpp:183`): each field is emitted
only when different from its default; texture references are emitted only
when their id is non-empty; then the base property. -/
def SerializePBRSpecGloss (sg : PBRSpecularGlossiness) (doc : Document)
    (s : ExtensionSerializer) : Except Err Json :=
  match sg with
  | .mk df dt sf gf st p => do
      let ms := optMember (df ≠ ((1 : ℚ), (1 : ℚ), (1 : ℚ), (1 : ℚ))) "diffuseFactor" (jsonArray4 df)
      let ms ←
        if dt.textureId ≠ "" then do
          let v ← SerializeTextureInfo doc dt doc.textures s
          Except.ok (ms ++ [("diffuseTexture", v)])
        else Except.ok ms
      let ms := ms ++ optMember (sf ≠ ((1 : ℚ), (1 : ℚ), (1 : ℚ))) "specularFactor" (jsonArray3 sf)
      let ms := ms ++ optMember (gf ≠ (1 : ℚ)) "glossinessFactor" (.num gf)
      let ms ←
        if st.textureId ≠ "" then do
          let v ← SerializeTextureInfo doc st doc.textures s
          Except.ok (ms ++ [("specularGlossinessTexture", v)])
        else Except.ok ms
      let ms ← SerializeProperty doc p .pbrSpecularGlossiness ms s
      .ok (.obj ms)

/-- `SerializeUnlit` (`ExtensionsKHR.cpp:293`): only the base property. -/
def SerializeUnlit (u : Unlit) (doc : Document) (s : ExtensionSerializer) :
    Except Err Json :=
  match u with
  | .mk p => do
      let ms ← SerializeProperty doc p .unlit [] s
      .ok (.obj ms)

/-- `SerializeDracoMeshCompression` (`ExtensionsKHR.cpp:337`): emits
`"bufferView"` only when set (resolved to its index), always emits the
`"attributes"` object, then the base property. -/
def SerializeDracoMeshCompression (dr : DracoMeshCompression) (doc : Document)
    (s : ExtensionSerializer) : Except Err Json :=
  match dr with
  | .mk bv attrs p => do
      let ms ←
        if bv ≠ "" then addOptionalMemberIndex "bufferView" [] bv doc.bufferViews
        else Except.ok ([] : List (String × Json))
      let ms := ms ++ [("attributes", Json.obj (attrs.map (fun a => (a.1, Json.num (a.2 : ℚ)))))]
      let ms ← SerializeProperty doc p .dracoMeshCompression ms s
      .ok (.obj ms)

/-- `SerializeTextureTransform` (`ExtensionsKHR.cpp:431`): each field is
emitted only when different from its default, then the base property. -/
def SerializeTextureTransform (tt : TextureTransform) (doc : Document)
    (s : ExtensionSerializer) : Except Err Json :=
  match tt with
  | .mk off rot sc tc p => do
      let ms := optMember (off ≠ ((0 : ℚ), (0 : ℚ))) "offset" (jsonArray2 off)
      let ms := ms ++ optMember (rot ≠ (0 : ℚ)) "rotation" (.num rot)
      let ms := ms ++ optMember (sc ≠ ((1 : ℚ), (1 : ℚ))) "scale" (jsonArray2 sc)
      let ms := ms ++ optMember (tc ≠ 0) "texCoord" (.num (tc : ℚ))
      let ms ← SerializeProperty doc p .textureTransform ms s
      .ok (.obj ms)

/-- `KHR::GetKHRExtensionSerializer` (`ExtensionsKHR.cpp:128`), one
unrolling: the four `AddHandler` entries; each codec downcasts the
`Extension` to its concrete class (the cast cannot fail when dispatch
selected the entry by the extension's runtime variant). -/
def khrSerializerWith (inner : ExtensionSerializer) : ExtensionSerializer :=
  ⟨[((.pbrSpecularGlossiness, .material), PBRSPECULARGLOSSINESS_NAME,
      fun e doc =>
        match e with
        | .pbrSpecularGlossiness sg => SerializePBRSpecGloss sg doc inner
        | _ => .error .typeAssert),
    ((.unlit, .material), UNLIT_NAME,
      fun e doc =>
        match e with
        | .unlit u => SerializeUnlit u doc inner
        | _ => .error .typeAssert),
    ((.dracoMeshCompression, .meshPrimitive), DRACOMESHCOMPRESSION_NAME,
      fun e doc =>
        match e with
        | .dracoMeshCompression dr => SerializeDracoMeshCompression dr doc inner
        | _ => .error .typeAssert),
    ((.textureTransform, .textureInfo), TEXTURETRANSFORM_NAME,
      fun e doc =>
        match e with
        | .textureTransform tt => SerializeTextureTransform tt doc inner
        | _ => .error .typeAssert)]⟩

/-- The empty serializer registry. -/
def emptySerializer : ExtensionSerializer := ⟨[]⟩

/-- The KHR serializer registry, unrolled to the depth any KHR payload can
use (see `khrDeserializer`). -/
def khrSerializer : ExtensionSerializer :=
  khrSerializerWith (khrSerializerWith emptySerializer)

/-- Equality of the optional opaque `extras` text (absent compares equal
only to absent). -/
def optJsonEq : Option Json → Option Json → Bool
  | none, none => true
  | some a, some b => Json.beq a b
  | _, _ => false

/-- `std::unordered_map` equality for the unregistered-extensions map: the
same size and every key of the left map present in the right with an equal
value (order-independent). -/
def unregMapEq (a b : List (String × Json)) : Bool :=
  a.length = b.length &&
  a.all (fun m =>
    match findMember m.1 b with
    | some w => Json.beq m.2 w
    | none => false)

/-- Looks up a Draco attribute by semantic name. -/
def attrLookup (name : String) (l : List (String × ℕ)) : Option ℕ :=
  (l.find? (fun m => m.1 = name)).map (fun m => m.2)

/-- `std::unordered_map` equality for the Draco attribute map. -/
def attrMapEq (a b : List (String × ℕ)) : Bool :=
  a.length = b.length &&
  a.all (fun m => attrLookup m.1 b = some m.2)

mutual

/-- Modelled from the spec: `glTFProperty::Equals` (declared outside the
shown core): compares the extras text, the unregistered map, and the
registered extensions per variant by their `IsEqual`. -/
def GLTFProperty.EqualsProp : GLTFProperty → GLTFProperty → Bool
  | .mk ex u rp ru rd rt, .mk ex2 u2 rp2 ru2 rd2 rt2 =>
      optJsonEq ex ex2 && unregMapEq u u2 && optPbrEq rp rp2 &&
      optUnlitEq ru ru2 && optDracoEq rd rd2 && optTexTransformEq rt rt2

/-- Per-variant comparison of the registered `PBRSpecularGlossiness` slot. -/
def optPbrEq : Option PBRSpecularGlossiness → Option PBRSpecularGlossiness → Bool
  | none, none => true
  | some a, some b => PBRSpecularGlossiness.eqData a b
  | _, _ => false

/-- Per-variant comparison of the registered `Unlit` slot
(`Unlit::IsEqual` holds between any two `Unlit` instances). -/
def optUnlitEq : Option Unlit → Option Unlit → Bool
  | none, none => true
  | some _, some _ => true
  | _, _ => false

/-- Per-variant comparison of the registered `DracoMeshCompression` slot. -/
def optDracoEq : Option DracoMeshCompression → Option DracoMeshCompression → Bool
  | none, none => true
  | some a, some b => DracoMeshCompression.eqData a b
  | _, _ => false

/-- Per-variant comparison of the registered `TextureTransform` slot. -/
def optTexTransformEq : Option TextureTransform → Option TextureTransform → Bool
  | none, none => true
  | some a, some b => TextureTransform.eqData a b
  | _, _ => false

/-- Modelled from the spec: `TextureInfo::operator==` (declared outside the
shown core): all fields by value, including the base property. -/
def TextureInfo.texEq : TextureInfo → TextureInfo → Bool
  | .mk id tc p, .mk id2 tc2 p2 =>
      id = id2 && tc = tc2 && GLTFProperty.EqualsProp p p2

/-- `PBRSpecularGlossiness::IsEqual` (`ExtensionsKHR.cpp:170`) on two
instances of the same class: base equality and field-by-field comparison. -/
def PBRSpecularGlossiness.eqData : PBRSpecularGlossiness → PBRSpecularGlossiness → Bool
  | .mk df dt sf gf st p, .mk df2 dt2 sf2 gf2 st2 p2 =>
      GLTFProperty.EqualsProp p p2 && df = df2 && TextureInfo.texEq dt dt2 &&
      sf = sf2 && gf = gf2 && TextureInfo.texEq st st2

/-- `DracoMeshCompression::IsEqual` (`ExtensionsKHR.cpp:327`) on two
instances of the same class. -/
def DracoMeshCompression.eqData : DracoMeshCompression → DracoMeshCompression → Bool
  | .mk bv attrs p, .mk bv2 attrs2 p2 =>
      GLTFProperty.EqualsProp p p2 && bv = bv2 && attrMapEq attrs attrs2

/-- `TextureTransform::IsEqual` (`ExtensionsKHR.cpp:419`) on two instances
of the same class. -/
def TextureTransform.eqData : TextureTransform → TextureTransform → Bool
  | .mk off rot sc tc p, .mk off2 rot2 sc2 tc2 p2 =>
      GLTFProperty.EqualsProp p p2 && off = off2 && rot = rot2 &&
      sc = sc2 && tc = tc2

end

/-- `Unlit::IsEqual` (`ExtensionsKHR.cpp:288`): true exactly when the
`dynamic_cast` of the other instance to `Unlit` succeeds; no field or base
state is inspected. -/
def Unlit.IsEqual (_ : Unlit) (rhs : Extension) : Bool :=
  match rhs with
  | .unlit _ => true
  | _ => false

/-- `Extension::IsEqual` dispatch: each concrete class's `IsEqual` first
checks the `dynamic_cast` of the other instance to its own class, then
compares fields. -/
def Extension.IsEqual : Extension → Extension → Bool
  | .pbrSpecularGlossiness a, rhs =>
      match rhs with
      | .pbrSpecularGlossiness b => PBRSpecularGlossiness.eqData a b
      | _ => false
  | .unlit a, rhs => a.IsEqual rhs
  | .dracoMeshCompression a, rhs =>
      match rhs with
      | .dracoMeshCompression b => DracoMeshCompression.eqData a b
      | _ => false
  | .textureTransform a, rhs =>
      match rhs with
      | .textureTransform b => TextureTransform.eqData a b
      | _ => false

/-- The four extension names the KHR registries know. -/
def khrNames : List String :=
  [PBRSPECULARGLOSSINESS_NAME, UNLIT_NAME, DRACOMESHCOMPRESSION_NAME,
   TEXTURETRANSFORM_NAME]

/-- The id resolves in the indexed collection and equals the decimal string
of its own index — the relationship the glTF reader establishes for every
reference id it creates, and the condition under which resolving an id to
its index and reading it back as a decimal string is the identity. -/
def resolvesToSelf (ids : List String) (id : String) : Bool :=
  match ids.findIdx? (fun x => x = id) with
  | some n => id = Nat.repr n && n < 2 ^ 32
  | none => false

/-- The base property holds nothing at all (a default-constructed
`glTFProperty`). -/
def isEmptyProp (p : GLTFProperty) : Bool :=
  p.extras.isNone && p.unregistered.isEmpty && p.regPbr.isNone &&
  p.regUnlit.isNone && p.regDraco.isNone && p.regTexTransform.isNone

/-- A default-constructed texture reference (what an absent texture member
deserializes to). -/
def isDefaultTexInfo (ti : TextureInfo) : Bool :=
  ti.textureId = "" && ti.texCoord = 0 && isEmptyProp ti.prop

/-- A valid base property of an extension instance itself: unregistered
names are unique and do not clash with the four KHR identifiers (a clash
would be re-dispatched on re-parse), and no registered extension is
attached (no serializer entry exists for an extension-class owner, so an
attached one could not be re-serialized). -/
def ValidBaseProp (p : GLTFProperty) : Prop :=
  (p.unregistered.map Prod.fst).Nodup ∧
  (∀ m ∈ p.unregistered, m.1 ∉ khrNames) ∧
  p.regPbr = none ∧ p.regUnlit = none ∧ p.regDraco = none ∧
  p.regTexTransform = none

/-- A valid `TextureTransform` instance: a valid base and an in-range
texCoord (`unsigned int` in the code). -/
def ValidTextureTransform (t : TextureTransform) : Prop :=
  match t with
  | .mk _ _ _ tc p => ValidBaseProp p ∧ tc < 2 ^ 32

/-- A valid base property of a texture reference: like `ValidBaseProp`, but
a registered `TextureTransform` may be attached — the one nested typed
extension the KHR registries can serialize and re-dispatch — provided the
document declares its name. -/
def ValidTexInfoProp (doc : Document) (p : GLTFProperty) : Prop :=
  (p.unregistered.map Prod.fst).Nodup ∧
  (∀ m ∈ p.unregistered, m.1 ∉ khrNames) ∧
  p.regPbr = none ∧ p.regUnlit = none ∧ p.regDraco = none ∧
  (∀ t, p.regTexTransform = some t →
    ValidTextureTransform t ∧ TEXTURETRANSFORM_NAME ∈ doc.extensionsUsed)

/-- A valid texture-reference field of a `PBRSpecularGlossiness`: either the
default (absent) reference, or a reference whose id resolves in the
document's texture collection to its own decimal index. -/
def ValidTexRef (doc : Document) (ti : TextureInfo) : Prop :=
  isDefaultTexInfo ti = true ∨
  (ti.textureId ≠ "" ∧ resolvesToSelf doc.textures ti.textureId = true ∧
   ti.texCoord < 2 ^ 32 ∧ ValidTexInfoProp doc ti.prop)

/-- A valid `PBRSpecularGlossiness` instance. -/
def ValidPBRSpecGloss (doc : Document) (sg : PBRSpecularGlossiness) : Prop :=
  match sg with
  | .mk _ dt _ _ st p =>
      ValidBaseProp p ∧ ValidTexRef doc dt ∧ ValidTexRef doc st

/-- A valid `Unlit` instance. -/
def ValidUnlit (u : Unlit) : Prop :=
  match u with
  | .mk p => ValidBaseProp p

/-- A valid `DracoMeshCompression` instance as the data model alone
constrains it: unique semantic names, `uint32` attribute ids, and a
buffer-view id that is absent or resolves to its own index. -/
def ValidDracoBase (doc : Document) (dr : DracoMeshCompression) : Prop :=
  match dr with
  | .mk bv attrs p =>
      ValidBaseProp p ∧ (attrs.map Prod.fst).Nodup ∧
      (∀ a ∈ attrs, a.2 < 2 ^ 32) ∧
      (bv = "" ∨ (bv ≠ "" ∧ resolvesToSelf doc.bufferViews bv = true))

/-- A `DracoMeshCompression` instance that additionally keeps every
attribute id below `2^31`, so that the value survives the deserializer's
`IsInt` check. -/
def ValidDraco (doc : Document) (dr : DracoMeshCompression) : Prop :=
  ValidDracoBase doc dr ∧ ∀ a, a ∈ dr.attributes → a.2 < 2 ^ 31

/-- `findMember` on a cons cell. -/
theorem findMember_cons (n m : String) (j : Json) (rest : List (String × Json)) :
    findMember n ((m, j) :: rest) = if m = n then some j else findMember n rest := by
  by_cases h : m = n <;> simp [findMember, List.find?_cons, h]

/-- `findMember` distributes over append. -/
theorem findMember_append (n : String) (a b : List (String × Json)) :
    findMember n (a ++ b) = (findMember n a).or (findMember n b) := by
  simp only [findMember, List.find?_append]
  cases a.find? (fun m => m.1 = n) <;> simp

/-- A member list contains a key exactly when `findMember` succeeds. -/
theorem any_key_iff_findMember_isSome (n : String) (u : List (String × Json)) :
    u.any (fun m => m.1 = n) = true ↔ (findMember n u).isSome = true := by
  induction u with
  | nil => simp [findMember]
  | cons hd tl ih =>
      obtain ⟨m, j⟩ := hd
      by_cases h : m = n <;> simp [findMember_cons, h, ih]

/-- With unique keys, `findMember` returns each binding of the list. -/
theorem findMember_self_of_nodup :
    ∀ {u : List (String × Json)}, (u.map Prod.fst).Nodup →
    ∀ m ∈ u, findMember m.1 u = some m.2 := by
  intro u
  induction u with
  | nil => intro _ m hm; cases hm
  | cons hd tl ih =>
      intro hnd m hm
      obtain ⟨k, v⟩ := hd
      simp only [List.map_cons, List.nodup_cons] at hnd
      rcases List.mem_cons.mp hm with h | h
      · subst h; simp [findMember_cons]
      · have hk : k ≠ m.1 := by
          intro he
          exact hnd.1 (he ▸ List.mem_map_of_mem Prod.fst h)
        rw [findMember_cons, if_neg hk]
        exact ih hnd.2 m h

/-- `optJsonEq` is reflexive. -/
theorem optJsonEq_refl (o : Option Json) : optJsonEq o o = true := by
  cases o <;> simp [optJsonEq, Json.beq_refl]

/-- `unregMapEq` is reflexive on maps with unique keys. -/
theorem unregMapEq_refl {u : List (String × Json)}
    (h : (u.map Prod.fst).Nodup) : unregMapEq u u = true := by
  simp only [unregMapEq, Bool.and_eq_true, decide_eq_true_eq, List.all_eq_true]
  refine ⟨trivial, fun m hm => ?_⟩
  rw [findMember_self_of_nodup h m hm]
  exact Json.beq_refl m.2

/-- With unique keys, `attrLookup` returns each binding of the list. -/
theorem attrLookup_self_of_nodup :
    ∀ {u : List (String × ℕ)}, (u.map Prod.fst).Nodup →
    ∀ m ∈ u, attrLookup m.1 u = some m.2 := by
  intro u
  induction u with
  | nil => intro _ m hm; cases hm
  | cons hd tl ih =>
      intro hnd m hm
      obtain ⟨k, v⟩ := hd
      simp only [List.map_cons, List.nodup_cons] at hnd
      rcases List.mem_cons.mp hm with h | h
      · subst h; simp [attrLookup]
      · have hk : k ≠ m.1 := by
          intro he
          exact hnd.1 (he ▸ List.mem_map_of_mem Prod.fst h)
        simp only [attrLookup, List.find?_cons]
        have : (decide (k = m.1)) = false := decide_eq_false hk
        simp only [this]
        exact ih hnd.2 m h

/-- `attrMapEq` is reflexive on maps with unique keys. -/
theorem attrMapEq_refl {u : List (String × ℕ)}
    (h : (u.map Prod.fst).Nodup) : attrMapEq u u = true := by
  simp only [attrMapEq, Bool.and_eq_true, decide_eq_true_eq, List.all_eq_true]
  exact ⟨trivial, fun m hm => attrLookup_self_of_nodup h m hm⟩

/-- The effect of the `ParseExtensions` loop on the unregistered map when no
entry is dispatched: successive `emplace` calls. -/
def emplaceAll (u : List (String × Json)) : List (String × Json) → List (String × Json)
  | [] => u
  | (n, v) :: rest =>
      emplaceAll (if u.any (fun m => m.1 = n) then u else u ++ [(n, v)]) rest

/-- When the registry offers no handler for any entry name, the
`ParseExtensions` loop never errors and only emplaces raw pairs. -/
theorem parseEntries_no_dispatch (d : ExtensionDeserializer) (k : OwnerKind)
    (entries : List (String × Json))
    (hnd : ∀ e ∈ entries, (d.HasHandlerFor e.1 k || d.HasHandlerName e.1) = false) :
    ∀ ex u rp ru rd rt,
    ParseExtensionEntries d k entries (.mk ex u rp ru rd rt) =
      .ok (.mk ex (emplaceAll u entries) rp ru rd rt) := by
  induction entries with
  | nil => intro ex u rp ru rd rt; rfl
  | cons hd tl ih =>
      intro ex u rp ru rd rt
      obtain ⟨n, v⟩ := hd
      have hhd := hnd (n, v) (List.mem_cons_self _ _)
      have htl : ∀ e ∈ tl, (d.HasHandlerFor e.1 k || d.HasHandlerName e.1) = false :=
        fun e he => hnd e (List.mem_cons_of_mem _ he)
      simp only [ParseExtensionEntries, ParseExtensionEntry, hhd, Bool.false_eq_true,
        if_false, GLTFProperty.emplaceUnregistered, emplaceAll]
      by_cases hu : u.any (fun m => m.1 = n) <;>
        simp only [hu, if_true, if_false, Bool.false_eq_true, Bind.bind, Except.bind] <;>
        exact ih htl ex _ rp ru rd rt

/-- First write wins: a lookup in the map produced by a sequence of
`emplace` calls prefers the existing bindings and otherwise the first
occurrence among the emplaced entries. -/
theorem findMember_emplaceAll (n : String) :
    ∀ (entries u : List (String × Json)),
    findMember n (emplaceAll u entries) = (findMember n u).or (findMember n entries) := by
  intro entries
  induction entries with
  | nil => intro u; simp [emplaceAll, findMember]
  | cons hd tl ih =>
      intro u
      obtain ⟨m, v⟩ := hd
      simp only [emplaceAll]
      by_cases hu : u.any (fun x => x.1 = m)
      · simp only [hu, if_true, ih]
        by_cases hnm : m = n
        · subst hnm
          have : (findMember m u).isSome = true :=
            (any_key_iff_findMember_isSome m u).mp hu
          obtain ⟨x, hx⟩ := Option.isSome_iff_exists.mp this
          simp [hx, findMember_cons]
        · simp [findMember_cons, hnm]
      · simp only [hu, if_false, Bool.false_eq_true, ih, findMember_append]
        by_cases hnm : m = n
        · subst hnm
          have : ¬ (findMember m u).isSome = true :=
            fun hs => hu ((any_key_iff_findMember_isSome m u).mpr hs)
          have hnone : findMember m u = none := by
            cases hfm : findMember m u
            · rfl
            · exact absurd (by simp [hfm]) this
          simp [hnone, findMember_cons]
        · simp only [findMember_cons, hnm, if_false]
          cases findMember n u <;> simp [findMember]

/-- Emplacing entries with fresh, pairwise-distinct keys into a map appends
all of them in order. -/
theorem emplaceAll_append (entries u : List (String × Json))
    (hnd : (entries.map Prod.fst).Nodup)
    (hdisj : ∀ e ∈ entries, u.any (fun m => m.1 = e.1) = false) :
    emplaceAll u entries = u ++ entries := by
  induction entries generalizing u with
  | nil => simp [emplaceAll]
  | cons hd tl ih =>
      obtain ⟨n, v⟩ := hd
      simp only [List.map_cons, List.nodup_cons] at hnd
      have hu : u.any (fun m => m.1 = n) = false := hdisj (n, v) (List.mem_cons_self _ _)
      simp only [emplaceAll, hu, if_false, Bool.false_eq_true]
      have hdisj2 : ∀ e ∈ tl, (u ++ [(n, v)]).any (fun m => m.1 = e.1) = false := by
        intro e he
        simp only [List.any_append, Bool.or_eq_false_iff]
        refine ⟨hdisj e (List.mem_cons_of_mem _ he), ?_⟩
        simp only [List.any_cons, List.any_nil, Bool.or_false]
        have : n ≠ e.1 := by
          intro hne
          exact hnd.1 (hne ▸ List.mem_map_of_mem Prod.fst he)
        simp [this]
      rw [ih (u ++ [(n, v)]) hnd.2 hdisj2]
      simp

/-- A registry table whose entries all bear KHR names. -/
def KhrOnlyNames (d : ExtensionDeserializer) : Prop :=
  ∀ h ∈ d.handlers, h.1.1 ∈ khrNames

/-- A non-KHR name has no handler on any owner kind in a KHR-only table. -/
theorem hasHandlerName_false (d : ExtensionDeserializer) (hk : KhrOnlyNames d)
    (n : String) (hn : n ∉ khrNames) : d.HasHandlerName n = false := by
  rw [ExtensionDeserializer.HasHandlerName]
  rw [List.any_eq_false]
  intro h hh
  simp only [decide_eq_true_eq]
  intro he
  exact hn (he ▸ hk h hh)

/-- A non-KHR name has no handler on a given owner kind in a KHR-only
table. -/
theorem hasHandlerFor_false (d : ExtensionDeserializer) (hk : KhrOnlyNames d)
    (n : String) (k : OwnerKind) (hn : n ∉ khrNames) : d.HasHandlerFor n k = false := by
  rw [ExtensionDeserializer.HasHandlerFor]
  rw [List.any_eq_false]
  intro h hh
  simp only [decide_eq_true_eq]
  intro he
  have hmem := hk h hh
  rw [he] at hmem
  exact hn hmem

/-- Every unrolling of the KHR deserializer table is KHR-only. -/
theorem khrOnly_with (inner : ExtensionDeserializer) :
    KhrOnlyNames (khrDeserializerWith inner) := by
  intro h hh
  simp only [khrDeserializerWith, List.mem_cons, List.not_mem_nil, or_false] at hh
  rcases hh with rfl | rfl | rfl | rfl <;> simp [khrNames]

/-- The empty deserializer table is KHR-only. -/
theorem khrOnly_empty : KhrOnlyNames emptyDeserializer := by
  intro h hh
  cases hh

/-- The member list contributed by `SerializePropertyExtras`. -/
def extrasSeg : Option Json → List (String × Json)
  | some e => [("extras", e)]
  | none => []

/-- `SerializePropertyExtras` appends the extras segment. -/
theorem serializePropertyExtras_eq (ex : Option Json) (u : List (String × Json))
    (rp : Option PBRSpecularGlossiness) (ru : Option Unlit)
    (rd : Option DracoMeshCompression) (rt : Option TextureTransform)
    (ms : List (String × Json)) :
    SerializePropertyExtras (.mk ex u rp ru rd rt) ms = ms ++ extrasSeg ex := by
  cases ex <;> simp [SerializePropertyExtras, extrasSeg, GLTFProperty.extras]

/-- Serializing a base property with no registered extensions succeeds for
any registry and emits the unregistered entries (if any) and the extras. -/
theorem serializeProperty_slots_none (doc : Document) (s : ExtensionSerializer)
    (k : OwnerKind) (ex : Option Json) (u ms : List (String × Json)) :
    SerializeProperty doc (.mk ex u none none none none) k ms s =
      .ok ((ms ++ optMember (!u.isEmpty) "extensions" (.obj u)) ++ extrasSeg ex) := by
  have hreg : (GLTFProperty.mk ex u none none none none).GetRegistered = [] := rfl
  by_cases hu : u.isEmpty
  · have hu2 : u = [] := by simpa using hu
    subst hu2
    simp [SerializeProperty, SerializePropertyExtensions, hreg, optMember,
      serializePropertyExtras_eq, Bind.bind, Except.bind, GLTFProperty.unregistered]
  · have hu2 : u.isEmpty = false := by simpa using hu
    simp [SerializeProperty, SerializePropertyExtensions, hreg, hu2, optMember,
      serializePropertyExtras_eq, Bind.bind, Except.bind, SerializeRegistered,
      GLTFProperty.unregistered]

/-- Serializing a texture reference's base property whose only registered
extension is a `TextureTransform` emits the transform (serialized through
the inner registry) followed by the unregistered entries, provided the name
does not collide and is declared in `extensionsUsed`. -/
theorem serializeProperty_tt (doc : Document) (s2 : ExtensionSerializer)
    (ex : Option Json) (u ms : List (String × Json)) (t : TextureTransform)
    (jt : Json)
    (hser : SerializeTextureTransform t doc s2 = .ok jt)
    (hcol : u.any (fun m => m.1 = TEXTURETRANSFORM_NAME) = false)
    (hused : doc.extensionsUsed.contains TEXTURETRANSFORM_NAME = true) :
    SerializeProperty doc (.mk ex u none none none (some t)) .textureInfo ms
        (khrSerializerWith s2) =
      .ok ((ms ++ [("extensions", .obj ((TEXTURETRANSFORM_NAME, jt) :: u))]) ++
        extrasSeg ex) := by
  have hreg : (GLTFProperty.mk ex u none none none (some t)).GetRegistered =
      [.textureTransform t] := rfl
  have hfind : (khrSerializerWith s2).handlers.find?
      (fun h => h.1 = ((Extension.textureTransform t).variant, OwnerKind.textureInfo)) =
      some ((.textureTransform, .textureInfo), TEXTURETRANSFORM_NAME,
        fun e doc =>
          match e with
          | .textureTransform tt => SerializeTextureTransform tt doc s2
          | _ => .error .typeAssert) := by
    simp [khrSerializerWith, List.find?, Extension.variant]
  simp only [SerializeProperty, SerializePropertyExtensions, hreg,
    GLTFProperty.unregistered, List.isEmpty_cons, Bool.and_false,
    Bind.bind, Except.bind, SerializeRegistered,
    ExtensionSerializer.SerializeExt, hfind, hser,
    GLTFProperty.HasUnregisteredExtension, hcol, hused]
  simp [serializePropertyExtras_eq, Bind.bind, Except.bind]

/-- `ParseExtras` on a node with no extras stores exactly the `"extras"`
member (when present). -/
theorem parseExtras_eq (ms u : List (String × Json))
    (rp : Option PBRSpecularGlossiness) (ru : Option Unlit)
    (rd : Option DracoMeshCompression) (rt : Option TextureTransform) :
    ParseExtras ms (.mk none u rp ru rd rt) =
      .mk (findMember "extras" ms) u rp ru rd rt := by
  cases h : findMember "extras" ms <;> simp [ParseExtras, h]

/-- Parsing a property whose `"extensions"` member is absent stores only
the extras. -/
theorem parseProperty_no_ext (d : ExtensionDeserializer) (k : OwnerKind)
    (ms : List (String × Json))
    (hext : findMember "extensions" ms = none) :
    ParseProperty d k ms emptyProp =
      .ok (.mk (findMember "extras" ms) [] none none none none) := by
  simp [ParseProperty, ParseExtensions, hext, emptyProp, parseExtras_eq,
    Bind.bind, Except.bind]

/-- Parsing a property whose `"extensions"` object holds only names the
registry does not know routes every entry to the unregistered map. -/
theorem parseProperty_unreg (d : ExtensionDeserializer) (k : OwnerKind)
    (hk : KhrOnlyNames d) (ms entries : List (String × Json))
    (hext : findMember "extensions" ms = some (.obj entries))
    (hnames : ∀ e ∈ entries, e.1 ∉ khrNames) :
    ParseProperty d k ms emptyProp =
      .ok (.mk (findMember "extras" ms) (emplaceAll [] entries)
        none none none none) := by
  have hnd : ∀ e ∈ entries, (d.HasHandlerFor e.1 k || d.HasHandlerName e.1) = false := by
    intro e he
    rw [hasHandlerFor_false d hk e.1 k (hnames e he),
      hasHandlerName_false d hk e.1 (hnames e he)]
    rfl
  simp [ParseProperty, ParseExtensions, hext, Json.asObjMembers, emptyProp,
    parseEntries_no_dispatch d k entries hnd, parseExtras_eq,
    Bind.bind, Except.bind]

/-- Parsing a texture reference's property whose `"extensions"` object
starts with a `KHR_texture_transform` entry dispatches that entry through
the registry (attaching the resulting transform) and routes the remaining,
unknown-name entries to the unregistered map. -/
theorem parseProperty_tt (d2 : ExtensionDeserializer)
    (ms entries : List (String × Json)) (jt : Json) (t2 : TextureTransform)
    (hext : findMember "extensions" ms =
      some (.obj ((TEXTURETRANSFORM_NAME, jt) :: entries)))
    (hdes : DeserializeTextureTransform jt d2 = .ok (.textureTransform t2))
    (hnames : ∀ e ∈ entries, e.1 ∉ khrNames) :
    ParseProperty (khrDeserializerWith d2) .textureInfo ms emptyProp =
      .ok (.mk (findMember "extras" ms) (emplaceAll [] entries)
        none none none (some t2)) := by
  have hfor : (khrDeserializerWith d2).HasHandlerFor TEXTURETRANSFORM_NAME .textureInfo = true := by
    simp [khrDeserializerWith, ExtensionDeserializer.HasHandlerFor]
  have hfind : (khrDeserializerWith d2).handlers.find?
      (fun h => h.1 = (TEXTURETRANSFORM_NAME, OwnerKind.textureInfo)) =
      some ((TEXTURETRANSFORM_NAME, .textureInfo),
        fun j => DeserializeTextureTransform j d2) := by
    simp [khrDeserializerWith, List.find?, PBRSPECULARGLOSSINESS_NAME,
      UNLIT_NAME, DRACOMESHCOMPRESSION_NAME, TEXTURETRANSFORM_NAME]
  have hnd : ∀ e ∈ entries,
      ((khrDeserializerWith d2).HasHandlerFor e.1 .textureInfo ||
        (khrDeserializerWith d2).HasHandlerName e.1) = false := by
    intro e he
    rw [hasHandlerFor_false _ (khrOnly_with d2) e.1 _ (hnames e he),
      hasHandlerName_false _ (khrOnly_with d2) e.1 (hnames e he)]
    rfl
  simp only [ParseProperty, ParseExtensions, hext, Json.asObjMembers,
    Bind.bind, Except.bind, ParseExtensionEntries, ParseExtensionEntry, hfor,
    Bool.true_or, if_true, ExtensionDeserializer.Deserialize, hfind, hdes,
    Except.map, emptyProp, GLTFProperty.SetExtension]
  simp [parseEntries_no_dispatch _ _ entries hnd, parseExtras_eq,
    Bind.bind, Except.bind]

/-- `findMember` on the empty member list. -/
theorem findMember_nil (n : String) : findMember n [] = none := rfl

/-- Scanning past a conditionally emitted member with a different name. -/
theorem findMember_skip (n m : String) (h : m ≠ n) (c : Bool) (j : Json)
    (rest : List (String × Json)) :
    findMember n (optMember c m j ++ rest) = findMember n rest := by
  cases c <;> simp [optMember, findMember_cons, h]

/-- Scanning a conditionally emitted member with the sought name. -/
theorem findMember_hit (n : String) (c : Bool) (j : Json)
    (rest : List (String × Json)) :
    findMember n (optMember c n j ++ rest) = if c then some j else findMember n rest := by
  cases c <;> simp [optMember, findMember_cons]

/-- Scanning past the extras segment with a different name. -/
theorem findMember_skip_extras (n : String) (h : n ≠ "extras") (ex : Option Json) :
    findMember n (extrasSeg ex) = none := by
  have h2 : ¬ ("extras" = n) := fun a => h a.symm
  cases ex <;> simp [extrasSeg, findMember_cons, findMember_nil, h2]

/-- The extras segment holds exactly the extras. -/
theorem findMember_extras_extrasSeg (ex : Option Json) :
    findMember "extras" (extrasSeg ex) = ex := by
  cases ex <;> simp [extrasSeg, findMember_cons, findMember_nil]

/-- A natural below `2^32` reads back from its JSON number by `GetUint`. -/
theorem getUIntValue_natCast (n : ℕ) (h : n < 2 ^ 32) :
    Json.getUIntValue (.num (n : ℚ)) = .ok n := by
  simp [Json.getUIntValue, Rat.den_natCast, Rat.num_natCast]
  exact_mod_cast h

/-- Parsing a property whose `"extensions"` object (emitted only when
non-empty) holds only unknown, pairwise-distinct names reproduces exactly
those entries as the unregistered map. -/
theorem parseProperty_optUnreg (d : ExtensionDeserializer) (k : OwnerKind)
    (hk : KhrOnlyNames d) (ms u : List (String × Json))
    (hext : findMember "extensions" ms =
      if (!u.isEmpty) = true then some (.obj u) else none)
    (hnames : ∀ e ∈ u, e.1 ∉ khrNames)
    (hnodup : (u.map Prod.fst).Nodup) :
    ParseProperty d k ms emptyProp =
      .ok (.mk (findMember "extras" ms) u none none none none) := by
  by_cases hu : u.isEmpty
  · have hu2 : u = [] := by simpa using hu
    subst hu2
    simp only [List.isEmpty_nil, Bool.not_true, Bool.false_eq_true, if_false] at hext
    exact parseProperty_no_ext d k ms hext
  · have hu2 : u.isEmpty = false := by simpa using hu
    simp only [hu2, Bool.not_false, if_true] at hext
    rw [parseProperty_unreg d k hk ms u hext hnames]
    rw [emplaceAll_append u [] hnodup (fun e _ => rfl)]
    simp

/-- `GLTFProperty.EqualsProp` is reflexive on slot-free properties with
unique unregistered keys. -/
theorem equalsProp_slots_none_refl (ex : Option Json) (u : List (String × Json))
    (hnodup : (u.map Prod.fst).Nodup) :
    GLTFProperty.EqualsProp (.mk ex u none none none none)
      (.mk ex u none none none none) = true := by
  simp [GLTFProperty.EqualsProp, optJsonEq_refl, unregMapEq_refl hnodup,
    optPbrEq, optUnlitEq, optDracoEq, optTexTransformEq]

/-- Serializing a valid `TextureTransform` (with any registry) emits exactly
the non-default fields, the non-empty unregistered entries and the extras. -/
theorem tt_serialize (doc : Document) (s : ExtensionSerializer)
    (off : ℚ × ℚ) (rot : ℚ) (sc : ℚ × ℚ) (tc : ℕ) (ex : Option Json)
    (u : List (String × Json)) :
    SerializeTextureTransform (.mk off rot sc tc (.mk ex u none none none none)) doc s =
      .ok (.obj
        (((optMember (off ≠ ((0 : ℚ), (0 : ℚ))) "offset" (jsonArray2 off) ++
           optMember (rot ≠ (0 : ℚ)) "rotation" (.num rot) ++
           optMember (sc ≠ ((1 : ℚ), (1 : ℚ))) "scale" (jsonArray2 sc) ++
           optMember (tc ≠ 0) "texCoord" (.num (tc : ℚ))) ++
          optMember (!u.isEmpty) "extensions" (.obj u)) ++ extrasSeg ex)) := by
  simp only [SerializeTextureTransform, serializeProperty_slots_none,
    Bind.bind, Except.bind]

/-- Re-parsing the serialized form of a valid `TextureTransform` through any
KHR-only registry reproduces the instance exactly. -/
theorem tt_parse (d2 : ExtensionDeserializer) (hk : KhrOnlyNames d2)
    (off : ℚ × ℚ) (rot : ℚ) (sc : ℚ × ℚ) (tc : ℕ) (ex : Option Json)
    (u : List (String × Json)) (htc : tc < 2 ^ 32)
    (hnodup : (u.map Prod.fst).Nodup)
    (hnames : ∀ e ∈ u, e.1 ∉ khrNames) :
    DeserializeTextureTransform (.obj
        (((optMember (off ≠ ((0 : ℚ), (0 : ℚ))) "offset" (jsonArray2 off) ++
           optMember (rot ≠ (0 : ℚ)) "rotation" (.num rot) ++
           optMember (sc ≠ ((1 : ℚ), (1 : ℚ))) "scale" (jsonArray2 sc) ++
           optMember (tc ≠ 0) "texCoord" (.num (tc : ℚ))) ++
          optMember (!u.isEmpty) "extensions" (.obj u)) ++ extrasSeg ex)) d2 =
      .ok (.textureTransform (.mk off rot sc tc (.mk ex u none none none none))) := by
  have hext : findMember "extensions"
      (((optMember (off ≠ ((0 : ℚ), (0 : ℚ))) "offset" (jsonArray2 off) ++
         optMember (rot ≠ (0 : ℚ)) "rotation" (.num rot) ++
         optMember (sc ≠ ((1 : ℚ), (1 : ℚ))) "scale" (jsonArray2 sc) ++
         optMember (tc ≠ 0) "texCoord" (.num (tc : ℚ))) ++
        optMember (!u.isEmpty) "extensions" (.obj u)) ++ extrasSeg ex) =
      if (!u.isEmpty) = true then some (.obj u) else none := by
    simp only [List.append_assoc]
    simp [findMember_skip, findMember_hit, findMember_skip_extras]
  have hex2 : findMember "extras"
      (((optMember (off ≠ ((0 : ℚ), (0 : ℚ))) "offset" (jsonArray2 off) ++
         optMember (rot ≠ (0 : ℚ)) "rotation" (.num rot) ++
         optMember (sc ≠ ((1 : ℚ), (1 : ℚ))) "scale" (jsonArray2 sc) ++
         optMember (tc ≠ 0) "texCoord" (.num (tc : ℚ))) ++
        optMember (!u.isEmpty) "extensions" (.obj u)) ++ extrasSeg ex) = ex := by
    simp only [List.append_assoc]
    simp [findMember_skip, findMember_extras_extrasSeg]
  have hPP := parseProperty_optUnreg d2 .textureTransform hk _ u hext hnames hnodup
  rw [hex2] at hPP
  have hOff : findMember "offset"
      (((optMember (off ≠ ((0 : ℚ), (0 : ℚ))) "offset" (jsonArray2 off) ++
         optMember (rot ≠ (0 : ℚ)) "rotation" (.num rot) ++
         optMember (sc ≠ ((1 : ℚ), (1 : ℚ))) "scale" (jsonArray2 sc) ++
         optMember (tc ≠ 0) "texCoord" (.num (tc : ℚ))) ++
        optMember (!u.isEmpty) "extensions" (.obj u)) ++ extrasSeg ex) =
      if off ≠ ((0 : ℚ), (0 : ℚ)) then some (jsonArray2 off) else none := by
    simp only [List.append_assoc]
    simp [findMember_skip, findMember_hit, findMember_skip_extras]
  have hRot : findMember "rotation"
      (((optMember (off ≠ ((0 : ℚ), (0 : ℚ))) "offset" (jsonArray2 off) ++
         optMember (rot ≠ (0 : ℚ)) "rotation" (.num rot) ++
         optMember (sc ≠ ((1 : ℚ), (1 : ℚ))) "scale" (jsonArray2 sc) ++
         optMember (tc ≠ 0) "texCoord" (.num (tc : ℚ))) ++
        optMember (!u.isEmpty) "extensions" (.obj u)) ++ extrasSeg ex) =
      if rot ≠ (0 : ℚ) then some (.num rot) else none := by
    simp only [List.append_assoc]
    simp [findMember_skip, findMember_hit, findMember_skip_extras]
  have hSc : findMember "scale"
      (((optMember (off ≠ ((0 : ℚ), (0 : ℚ))) "offset" (jsonArray2 off) ++
         optMember (rot ≠ (0 : ℚ)) "rotation" (.num rot) ++
         optMember (sc ≠ ((1 : ℚ), (1 : ℚ))) "scale" (jsonArray2 sc) ++
         optMember (tc ≠ 0) "texCoord" (.num (tc : ℚ))) ++
        optMember (!u.isEmpty) "extensions" (.obj u)) ++ extrasSeg ex) =
      if sc ≠ ((1 : ℚ), (1 : ℚ)) then some (jsonArray2 sc) else none := by
    simp only [List.append_assoc]
    simp [findMember_skip, findMember_hit, findMember_skip_extras]
  have hTc : findMember "texCoord"
      (((optMember (off ≠ ((0 : ℚ), (0 : ℚ))) "offset" (jsonArray2 off) ++
         optMember (rot ≠ (0 : ℚ)) "rotation" (.num rot) ++
         optMember (sc ≠ ((1 : ℚ), (1 : ℚ))) "scale" (jsonArray2 sc) ++
         optMember (tc ≠ 0) "texCoord" (.num (tc : ℚ))) ++
        optMember (!u.isEmpty) "extensions" (.obj u)) ++ extrasSeg ex) =
      if tc ≠ 0 then some (.num (tc : ℚ)) else none := by
    simp only [List.append_assoc]
    simp [findMember_skip, findMember_hit, findMember_skip_extras]
  simp only [DeserializeTextureTransform, Json.asObjMembers, Bind.bind, Except.bind,
    hOff, hRot, hSc, hTc, getMemberDoubleOrDefault, getMemberUIntOrDefault, hPP]
  by_cases h1 : off = ((0 : ℚ), (0 : ℚ)) <;>
    by_cases h2 : rot = (0 : ℚ) <;>
    by_cases h3 : sc = ((1 : ℚ), (1 : ℚ)) <;>
    by_cases h4 : tc = 0 <;>
    simp only [Prod.mk_zero_zero, Prod.mk_one_one] at h1 h3 <;>
    simp [h1, h2, h3, h4, Json.asArrElems, jsonArray2, listGetDoubles,
      Json.getDouble, vecAt, getUIntValue_natCast tc htc, Bind.bind, Except.bind,
      Prod.mk_zero_zero, Prod.mk_one_one, Prod.mk.eta]

/-- A natural below `2^32` survives the post-`IsInt` `uint32_t` read
unchanged. -/
theorem uint32OfInt_natCast (v : ℕ) (h : v < 2 ^ 32) : uint32OfInt (v : ℤ) = v := by
  rw [uint32OfInt, Int.emod_eq_of_lt (by positivity) (by exact_mod_cast h)]
  simp

/-- The round trip of a valid `TextureTransform` through serialize and
deserialize reproduces it exactly, for any serializer registry and any
KHR-only deserializer registry. -/
theorem tt_roundtrip (doc : Document) (s : ExtensionSerializer)
    (d2 : ExtensionDeserializer) (hk : KhrOnlyNames d2)
    (t : TextureTransform) (hv : ValidTextureTransform t) :
    ∃ jt, SerializeTextureTransform t doc s = .ok jt ∧
      DeserializeTextureTransform jt d2 = .ok (.textureTransform t) := by
  obtain ⟨off, rot, sc, tc, p⟩ := t
  obtain ⟨ex, u, rp, ru, rd, rt⟩ := p
  obtain ⟨⟨hnodup, hnames, hrp, hru, hrd, hrt⟩, htc⟩ := hv
  simp only [GLTFProperty.unregistered, GLTFProperty.regPbr, GLTFProperty.regUnlit,
    GLTFProperty.regDraco, GLTFProperty.regTexTransform] at hnodup hnames hrp hru hrd hrt
  subst hrp; subst hru; subst hrd; subst hrt
  exact ⟨_, tt_serialize doc s off rot sc tc ex u,
    tt_parse d2 hk off rot sc tc ex u htc hnodup hnames⟩

/-- `TextureTransform.eqData` is reflexive on valid instances. -/
theorem ttEqData_refl (t : TextureTransform) (hv : ValidTextureTransform t) :
    TextureTransform.eqData t t = true := by
  obtain ⟨off, rot, sc, tc, p⟩ := t
  obtain ⟨ex, u, rp, ru, rd, rt⟩ := p
  obtain ⟨⟨hnodup, hnames, hrp, hru, hrd, hrt⟩, htc⟩ := hv
  simp only [GLTFProperty.unregistered, GLTFProperty.regPbr, GLTFProperty.regUnlit,
    GLTFProperty.regDraco, GLTFProperty.regTexTransform] at hnodup hrp hru hrd hrt
  subst hrp; subst hru; subst hrd; subst hrt
  simp [TextureTransform.eqData, equalsProp_slots_none_refl ex u hnodup]

/-- The round trip of a valid `Unlit` through serialize and deserialize
reproduces it exactly. -/
theorem unlit_roundtrip (doc : Document) (s : ExtensionSerializer)
    (d2 : ExtensionDeserializer) (hk : KhrOnlyNames d2)
    (un : Unlit) (hv : ValidUnlit un) :
    ∃ j, SerializeUnlit un doc s = .ok j ∧
      DeserializeUnlit j d2 = .ok (.unlit un) := by
  obtain ⟨p⟩ := un
  obtain ⟨ex, u, rp, ru, rd, rt⟩ := p
  obtain ⟨hnodup, hnames, hrp, hru, hrd, hrt⟩ := hv
  simp only [GLTFProperty.unregistered, GLTFProperty.regPbr, GLTFProperty.regUnlit,
    GLTFProperty.regDraco, GLTFProperty.regTexTransform] at hnodup hnames hrp hru hrd hrt
  subst hrp; subst hru; subst hrd; subst hrt
  have hser : SerializeUnlit (.mk (.mk ex u none none none none)) doc s =
      .ok (.obj (([] ++ optMember (!u.isEmpty) "extensions" (.obj u)) ++ extrasSeg ex)) := by
    simp only [SerializeUnlit, serializeProperty_slots_none, Bind.bind, Except.bind]
  refine ⟨_, hser, ?_⟩
  have hext : findMember "extensions"
      (([] ++ optMember (!u.isEmpty) "extensions" (.obj u)) ++ extrasSeg ex) =
      if (!u.isEmpty) = true then some (.obj u) else none := by
    simp only [List.append_assoc, List.nil_append]
    simp [findMember_hit, findMember_skip_extras]
  have hPP := parseProperty_optUnreg d2 .unlit hk _ u hext hnames hnodup
  have hex2 : findMember "extras"
      (([] ++ optMember (!u.isEmpty) "extensions" (.obj u)) ++ extrasSeg ex) = ex := by
    simp only [List.append_assoc, List.nil_append]
    simp [findMember_skip, findMember_extras_extrasSeg]
  rw [hex2] at hPP
  simp only [List.nil_append] at hPP
  simp [DeserializeUnlit, Json.asObjMembers, Bind.bind, Except.bind, hPP]

/-- The Draco attribute loop accepts a serialized attribute map whose values
are `int`-representable and reproduces it by successive emplaces. -/
theorem readDracoAttrs_ok : ∀ (attrs acc : List (String × ℕ)),
    (attrs.map Prod.fst).Nodup → (∀ a ∈ attrs, a.2 < 2 ^ 31) →
    (∀ a ∈ attrs, acc.any (fun m => m.1 = a.1) = false) →
    readDracoAttrs acc (attrs.map (fun a => (a.1, Json.num (a.2 : ℚ)))) =
      .ok (acc ++ attrs) := by
  intro attrs
  induction attrs with
  | nil => intro acc _ _ _; simp [readDracoAttrs]
  | cons hd tl ih =>
      intro acc hnodup hbound hdisj
      obtain ⟨n, v⟩ := hd
      simp only [List.map_cons, List.nodup_cons] at hnodup
      have hv : v < 2 ^ 31 := hbound (n, v) (List.mem_cons_self _ _)
      have hint : (Json.num (v : ℚ)).isInt = true := by
        simp [Json.isInt, Rat.den_natCast, Rat.num_natCast]
        omega
      have hu32 : uint32OfInt ((v : ℚ) : ℚ).num = v := by
        rw [Rat.num_natCast]
        exact uint32OfInt_natCast v (lt_trans hv (by norm_num))
      have hacc : acc.any (fun m => m.1 = n) = false := hdisj (n, v) (List.mem_cons_self _ _)
      simp only [List.map_cons, readDracoAttrs, hint, if_true, emplaceAttr, hacc,
        Bool.false_eq_true, if_false, hu32]
      rw [ih (acc ++ [(n, v)]) hnodup.2
        (fun a ha => hbound a (List.mem_cons_of_mem _ ha)) ?_]
      · simp
      · intro a ha
        simp only [List.any_append, Bool.or_eq_false_iff]
        refine ⟨hdisj a (List.mem_cons_of_mem _ ha), ?_⟩
        simp only [List.any_cons, List.any_nil, Bool.or_false]
        have : n ≠ a.1 := by
          intro hne
          exact hnodup.1 (hne ▸ List.mem_map_of_mem Prod.fst ha)
        simp [this]

/-- Unpacks `resolvesToSelf`. -/
theorem resolvesToSelf_elim {ids : List String} {id : String}
    (h : resolvesToSelf ids id = true) :
    ∃ n, ids.findIdx? (fun x => x = id) = some n ∧ id = Nat.repr n ∧ n < 2 ^ 32 := by
  unfold resolvesToSelf at h
  cases hfi : ids.findIdx? (fun x => x = id) with
  | none => rw [hfi] at h; cases h
  | some n =>
      rw [hfi] at h
      simp only [Bool.and_eq_true, decide_eq_true_eq] at h
      exact ⟨n, rfl, h.1, h.2⟩

/-- The `Except` bind of a success reduces to the continuation. -/
theorem exc_bind_ok {α β : Type} (a : α) (f : α → Except Err β) :
    (Except.ok a >>= f : Except Err β) = f a := rfl

/-- `DeserializeDracoMeshCompression` on an object with no `"bufferView"`
member, characterised by the lookups its steps perform. -/
theorem deserializeDraco_char_noBV (d : ExtensionDeserializer)
    (ms : List (String × Json)) (avs : List (String × Json))
    (attrs : List (String × ℕ)) (p : GLTFProperty)
    (hbvm : findMember "bufferView" ms = none)
    (ham : findMember "attributes" ms = some (.obj avs))
    (hattrs : readDracoAttrs [] avs = .ok attrs)
    (hPP : ParseProperty d .dracoMeshCompression ms emptyProp = .ok p) :
    DeserializeDracoMeshCompression (.obj ms) d =
      .ok (.dracoMeshCompression (.mk "" attrs p)) := by
  simp [DeserializeDracoMeshCompression, Json.asObjMembers, Bind.bind, Except.bind,
    hbvm, ham, hattrs, hPP]

/-- `DeserializeDracoMeshCompression` on an object whose `"bufferView"`
member is an in-range index, characterised by the lookups its steps
perform. -/
theorem deserializeDraco_char_bv (d : ExtensionDeserializer)
    (ms : List (String × Json)) (n : ℕ) (hn32 : n < 2 ^ 32)
    (avs : List (String × Json)) (attrs : List (String × ℕ)) (p : GLTFProperty)
    (hbvm : findMember "bufferView" ms = some (.num (n : ℚ)))
    (ham : findMember "attributes" ms = some (.obj avs))
    (hattrs : readDracoAttrs [] avs = .ok attrs)
    (hPP : ParseProperty d .dracoMeshCompression ms emptyProp = .ok p) :
    DeserializeDracoMeshCompression (.obj ms) d =
      .ok (.dracoMeshCompression (.mk (Nat.repr n) attrs p)) := by
  simp only [DeserializeDracoMeshCompression, Json.asObjMembers]
  rw [exc_bind_ok]
  try simp only []
  rw [hbvm]
  try simp only []
  rw [getUIntValue_natCast n hn32]
  simp only [Except.map]
  rw [exc_bind_ok]
  try simp only []
  rw [ham]
  try simp only []
  rw [hattrs]
  rw [exc_bind_ok]
  try simp only []
  rw [hPP]
  rw [exc_bind_ok]

/-- The round trip of a valid `DracoMeshCompression` (attribute ids below
`2^31`) through serialize and deserialize reproduces it exactly. -/
theorem draco_roundtrip (doc : Document) (s : ExtensionSerializer)
    (d2 : ExtensionDeserializer) (hk : KhrOnlyNames d2)
    (dr : DracoMeshCompression) (hv : ValidDraco doc dr) :
    ∃ j, SerializeDracoMeshCompression dr doc s = .ok j ∧
      DeserializeDracoMeshCompression j d2 = .ok (.dracoMeshCompression dr) := by
  obtain ⟨hvb, ha31⟩ := hv
  obtain ⟨bv, attrs, p⟩ := dr
  obtain ⟨ex, u, rp, ru, rd, rt⟩ := p
  obtain ⟨hbase, hanodup, ha32, hbv⟩ := hvb
  obtain ⟨hnodup, hnames, hrp, hru, hrd, hrt⟩ := hbase
  simp only [GLTFProperty.unregistered, GLTFProperty.regPbr, GLTFProperty.regUnlit,
    GLTFProperty.regDraco, GLTFProperty.regTexTransform] at hnodup hnames hrp hru hrd hrt
  subst hrp; subst hru; subst hrd; subst hrt
  simp only [DracoMeshCompression.attributes] at ha31
  have hattrs := readDracoAttrs_ok attrs [] hanodup ha31 (fun a _ => rfl)
  simp only [List.nil_append] at hattrs
  rcases hbv with hbv | ⟨hbvne, hbv⟩
  · subst hbv
    have hser : SerializeDracoMeshCompression
        (.mk "" attrs (.mk ex u none none none none)) doc s =
        .ok (.obj ((([] ++
          [("attributes", Json.obj (attrs.map (fun a => (a.1, Json.num (a.2 : ℚ)))))]) ++
          optMember (!u.isEmpty) "extensions" (.obj u)) ++ extrasSeg ex)) := by
      simp only [SerializeDracoMeshCompression, ne_eq, not_true_eq_false, if_false,
        reduceIte, serializeProperty_slots_none, Bind.bind, Except.bind]
    refine ⟨_, hser, ?_⟩
    have hext : findMember "extensions"
        (("attributes", Json.obj (attrs.map (fun a => (a.1, Json.num (a.2 : ℚ))))) ::
          (optMember (!u.isEmpty) "extensions" (.obj u) ++ extrasSeg ex)) =
        if (!u.isEmpty) = true then some (.obj u) else none := by
      simp [findMember_cons, findMember_hit, findMember_skip_extras]
    have hPP := parseProperty_optUnreg d2 .dracoMeshCompression hk _ u hext hnames hnodup
    have hex2 : findMember "extras"
        (("attributes", Json.obj (attrs.map (fun a => (a.1, Json.num (a.2 : ℚ))))) ::
          (optMember (!u.isEmpty) "extensions" (.obj u) ++ extrasSeg ex)) = ex := by
      simp [findMember_cons, findMember_skip, findMember_extras_extrasSeg]
    rw [hex2] at hPP
    have hbvm : findMember "bufferView"
        (("attributes", Json.obj (attrs.map (fun a => (a.1, Json.num (a.2 : ℚ))))) ::
          (optMember (!u.isEmpty) "extensions" (.obj u) ++ extrasSeg ex)) = none := by
      simp [findMember_cons, findMember_skip, findMember_skip_extras]
    have ham : findMember "attributes"
        (("attributes", Json.obj (attrs.map (fun a => (a.1, Json.num (a.2 : ℚ))))) ::
          (optMember (!u.isEmpty) "extensions" (.obj u) ++ extrasSeg ex)) =
        some (Json.obj (attrs.map (fun a => (a.1, Json.num (a.2 : ℚ))))) := by
      simp [findMember_cons]
    have := deserializeDraco_char_noBV d2 _ _ attrs _ hbvm ham hattrs hPP
    simpa using this
  · obtain ⟨n, hfi, hrepr, hn32⟩ := resolvesToSelf_elim hbv
    subst hrepr
    have hser : SerializeDracoMeshCompression
        (.mk (Nat.repr n) attrs (.mk ex u none none none none)) doc s =
        .ok (.obj ((([("bufferView", Json.num (n : ℚ))] ++
          [("attributes", Json.obj (attrs.map (fun a => (a.1, Json.num (a.2 : ℚ)))))]) ++
          optMember (!u.isEmpty) "extensions" (.obj u)) ++ extrasSeg ex)) := by
      simp only [SerializeDracoMeshCompression, ne_eq, hbvne, not_false_eq_true, if_true,
        reduceIte, addOptionalMemberIndex, getIndex, hfi, List.nil_append,
        serializeProperty_slots_none, Bind.bind, Except.bind]
    refine ⟨_, hser, ?_⟩
    have hext : findMember "extensions"
        (("bufferView", Json.num (n : ℚ)) ::
          (("attributes", Json.obj (attrs.map (fun a => (a.1, Json.num (a.2 : ℚ))))) ::
            (optMember (!u.isEmpty) "extensions" (.obj u) ++ extrasSeg ex))) =
        if (!u.isEmpty) = true then some (.obj u) else none := by
      simp [findMember_cons, findMember_hit, findMember_skip_extras]
    have hPP := parseProperty_optUnreg d2 .dracoMeshCompression hk _ u hext hnames hnodup
    have hex2 : findMember "extras"
        (("bufferView", Json.num (n : ℚ)) ::
          (("attributes", Json.obj (attrs.map (fun a => (a.1, Json.num (a.2 : ℚ))))) ::
            (optMember (!u.isEmpty) "extensions" (.obj u) ++ extrasSeg ex))) = ex := by
      simp [findMember_cons, findMember_skip, findMember_extras_extrasSeg]
    rw [hex2] at hPP
    have hbvm : findMember "bufferView"
        (("bufferView", Json.num (n : ℚ)) ::
          (("attributes", Json.obj (attrs.map (fun a => (a.1, Json.num (a.2 : ℚ))))) ::
            (optMember (!u.isEmpty) "extensions" (.obj u) ++ extrasSeg ex))) =
        some (Json.num (n : ℚ)) := by
      simp [findMember_cons]
    have ham : findMember "attributes"
        (("bufferView", Json.num (n : ℚ)) ::
          (("attributes", Json.obj (attrs.map (fun a => (a.1, Json.num (a.2 : ℚ))))) ::
            (optMember (!u.isEmpty) "extensions" (.obj u) ++ extrasSeg ex))) =
        some (Json.obj (attrs.map (fun a => (a.1, Json.num (a.2 : ℚ))))) := by
      simp [findMember_cons]
    have := deserializeDraco_char_bv d2 _ n hn32 _ attrs _ hbvm ham hattrs hPP
    simpa using this

/-- `memberOrElse` with the member present. -/
theorem memberOrElse_some {α : Type} {ms : List (String × Json)} {name : String}
    {v : Json} (f : Json → Except Err α) (dflt : Except Err α)
    (h : findMember name ms = some v) : memberOrElse ms name f dflt = f v := by
  rw [memberOrElse, h]

/-- `memberOrElse` with the member absent. -/
theorem memberOrElse_none {α : Type} {ms : List (String × Json)} {name : String}
    (f : Json → Except Err α) (dflt : Except Err α)
    (h : findMember name ms = none) : memberOrElse ms name f dflt = dflt := by
  rw [memberOrElse, h]

/-- `FindRequiredMember` with the member present. -/
theorem findRequiredMember_some {ms : List (String × Json)} {name : String}
    {v : Json} (h : findMember name ms = some v) :
    findRequiredMember name ms = .ok v := by
  rw [findRequiredMember, h]

/-- `GetMemberValueOrDefault` (float) with the member present as a number. -/
theorem getMemberDoubleOrDefault_some {ms : List (String × Json)} {name : String}
    {q : ℚ} (dflt : ℚ) (h : findMember name ms = some (.num q)) :
    getMemberDoubleOrDefault ms name dflt = .ok q := by
  rw [getMemberDoubleOrDefault, h]; rfl

/-- `GetMemberValueOrDefault` (float) with the member absent. -/
theorem getMemberDoubleOrDefault_none {ms : List (String × Json)} {name : String}
    (dflt : ℚ) (h : findMember name ms = none) :
    getMemberDoubleOrDefault ms name dflt = .ok dflt := by
  rw [getMemberDoubleOrDefault, h]

/-- `GetMemberValueOrDefault` (unsigned) with the member present in range. -/
theorem getMemberUIntOrDefault_some {ms : List (String × Json)} {name : String}
    {k : ℕ} (dflt : ℕ) (h : findMember name ms = some (.num (k : ℚ)))
    (hk : k < 2 ^ 32) : getMemberUIntOrDefault ms name dflt = .ok k := by
  rw [getMemberUIntOrDefault, h]
  exact getUIntValue_natCast k hk

/-- `GetMemberValueOrDefault` (unsigned) with the member absent. -/
theorem getMemberUIntOrDefault_none {ms : List (String × Json)} {name : String}
    (dflt : ℕ) (h : findMember name ms = none) :
    getMemberUIntOrDefault ms name dflt = .ok dflt := by
  rw [getMemberUIntOrDefault, h]

/-- The diffuse-factor copy loop on a serialized 4-component colour. -/
theorem readColor4_jsonArray4 (v : ℚ × ℚ × ℚ × ℚ) :
    readColor4 (jsonArray4 v) = .ok v := by
  obtain ⟨a, b, c, dd⟩ := v
  simp [readColor4, jsonArray4, Json.asArrElems, listGetDoubles, Json.getDouble,
    vecAt, Bind.bind, Except.bind]

/-- The specular-factor copy loop on a serialized 3-component colour. -/
theorem readColor3_jsonArray3 (v : ℚ × ℚ × ℚ) :
    readColor3 (jsonArray3 v) = .ok v := by
  obtain ⟨a, b, c⟩ := v
  simp [readColor3, jsonArray3, Json.asArrElems, listGetDoubles, Json.getDouble,
    vecAt, Bind.bind, Except.bind]

/-- `ParseTextureInfo`, characterised by the lookups its steps perform. -/
theorem parseTexInfo_char (d : ExtensionDeserializer) (ms : List (String × Json))
    (n : ℕ) (tc : ℕ) (p : GLTFProperty)
    (hidx : findMember "index" ms = some (.num (n : ℚ))) (hn32 : n < 2 ^ 32)
    (htc : getMemberUIntOrDefault ms "texCoord" 0 = .ok tc)
    (hPP : ParseProperty d .textureInfo ms emptyProp = .ok p) :
    ParseTextureInfo d (.obj ms) = .ok (.mk (Nat.repr n) tc p) := by
  simp only [ParseTextureInfo, Json.asObjMembers]
  rw [exc_bind_ok]
  try simp only []
  rw [findRequiredMember_some hidx]
  rw [exc_bind_ok]
  try simp only []
  rw [getUIntValue_natCast n hn32]
  rw [exc_bind_ok]
  try simp only []
  rw [htc]
  rw [exc_bind_ok]
  try simp only []
  rw [hPP]
  rw [exc_bind_ok]

/-- The round trip of a valid, present texture reference through
`SerializeTextureInfo` and `ParseTextureInfo` (with the KHR registries)
reproduces it exactly, including a nested registered
`KHR_texture_transform`. -/
theorem texinfo_roundtrip (doc : Document) (s2 : ExtensionSerializer)
    (d2 : ExtensionDeserializer) (hk : KhrOnlyNames d2) (ti : TextureInfo)
    (hid : ti.textureId ≠ "")
    (hres : resolvesToSelf doc.textures ti.textureId = true)
    (htc32 : ti.texCoord < 2 ^ 32)
    (hp : ValidTexInfoProp doc ti.prop) :
    ∃ jt, SerializeTextureInfo doc ti doc.textures (khrSerializerWith s2) = .ok jt ∧
      ParseTextureInfo (khrDeserializerWith d2) jt = .ok ti := by
  obtain ⟨id, tc, p⟩ := ti
  obtain ⟨ex, u, rp, ru, rd, rt⟩ := p
  simp only [TextureInfo.textureId, TextureInfo.texCoord, TextureInfo.prop] at hid hres htc32 hp
  obtain ⟨hnodup, hnames, hrp, hru, hrd, htt⟩ := hp
  simp only [GLTFProperty.unregistered, GLTFProperty.regPbr, GLTFProperty.regUnlit,
    GLTFProperty.regDraco, GLTFProperty.regTexTransform] at hnodup hnames hrp hru hrd htt
  subst hrp; subst hru; subst hrd
  obtain ⟨n, hfi, hrepr, hn32⟩ := resolvesToSelf_elim hres
  subst hrepr
  have hanyu : u.any (fun m => m.1 = TEXTURETRANSFORM_NAME) = false := by
    rw [List.any_eq_false]
    intro m hm
    simp only [decide_eq_true_eq]
    intro he
    exact hnames m hm (by rw [he]; simp [khrNames])
  cases rt with
  | none =>
      have hser : SerializeTextureInfo doc (.mk (Nat.repr n) tc (.mk ex u none none none none))
          doc.textures (khrSerializerWith s2) =
          .ok (.obj ((([("index", Json.num (n : ℚ))] ++
            optMember (tc ≠ 0) "texCoord" (.num (tc : ℚ))) ++
            optMember (!u.isEmpty) "extensions" (.obj u)) ++ extrasSeg ex)) := by
        simp only [SerializeTextureInfo, TextureInfo.textureId, TextureInfo.texCoord,
          TextureInfo.prop, addOptionalMemberIndex, hid, reduceIte, if_neg,
          getIndex, hfi, List.nil_append, serializeProperty_slots_none,
          Bind.bind, Except.bind]
      refine ⟨_, hser, ?_⟩
      have hidx : findMember "index"
          (("index", Json.num (n : ℚ)) ::
            (optMember (tc ≠ 0) "texCoord" (.num (tc : ℚ)) ++
              (optMember (!u.isEmpty) "extensions" (.obj u) ++ extrasSeg ex))) =
          some (.num (n : ℚ)) := by
        simp [findMember_cons]
      have hext : findMember "extensions"
          (("index", Json.num (n : ℚ)) ::
            (optMember (tc ≠ 0) "texCoord" (.num (tc : ℚ)) ++
              (optMember (!u.isEmpty) "extensions" (.obj u) ++ extrasSeg ex))) =
          if (!u.isEmpty) = true then some (.obj u) else none := by
        simp [findMember_cons, findMember_skip, findMember_hit, findMember_skip_extras]
      have hPP := parseProperty_optUnreg (khrDeserializerWith d2) .textureInfo
        (khrOnly_with d2) _ u hext hnames hnodup
      have hex2 : findMember "extras"
          (("index", Json.num (n : ℚ)) ::
            (optMember (tc ≠ 0) "texCoord" (.num (tc : ℚ)) ++
              (optMember (!u.isEmpty) "extensions" (.obj u) ++ extrasSeg ex))) = ex := by
        simp [findMember_cons, findMember_skip, findMember_extras_extrasSeg]
      rw [hex2] at hPP
      have htcv : getMemberUIntOrDefault
          (("index", Json.num (n : ℚ)) ::
            (optMember (tc ≠ 0) "texCoord" (.num (tc : ℚ)) ++
              (optMember (!u.isEmpty) "extensions" (.obj u) ++ extrasSeg ex)))
          "texCoord" 0 = .ok tc := by
        have hfmtc : findMember "texCoord"
            (("index", Json.num (n : ℚ)) ::
              (optMember (tc ≠ 0) "texCoord" (.num (tc : ℚ)) ++
                (optMember (!u.isEmpty) "extensions" (.obj u) ++ extrasSeg ex))) =
            if tc ≠ 0 then some (.num (tc : ℚ)) else none := by
          simp [findMember_cons, findMember_skip, findMember_hit, findMember_skip_extras]
        by_cases h0 : tc = 0
        · subst h0
          rw [if_neg (by simp)] at hfmtc
          exact getMemberUIntOrDefault_none 0 hfmtc
        · rw [if_pos h0] at hfmtc
          exact getMemberUIntOrDefault_some 0 hfmtc htc32
      have := parseTexInfo_char (khrDeserializerWith d2) _ n tc _ hidx hn32 htcv hPP
      simpa using this
  | some t =>
      obtain ⟨hvt, hused⟩ := htt t rfl
      obtain ⟨jtt, hstt, hdtt⟩ := tt_roundtrip doc s2 d2 hk t hvt
      have hused2 : doc.extensionsUsed.contains TEXTURETRANSFORM_NAME = true := by
        simpa using hused
      have hserp := serializeProperty_tt doc s2 ex u
        ([("index", Json.num (n : ℚ))] ++ optMember (tc ≠ 0) "texCoord" (.num (tc : ℚ)))
        t jtt hstt hanyu hused2
      have hser : SerializeTextureInfo doc (.mk (Nat.repr n) tc (.mk ex u none none none (some t)))
          doc.textures (khrSerializerWith s2) =
          .ok (.obj ((([("index", Json.num (n : ℚ))] ++
            optMember (tc ≠ 0) "texCoord" (.num (tc : ℚ))) ++
            [("extensions", .obj ((TEXTURETRANSFORM_NAME, jtt) :: u))]) ++ extrasSeg ex)) := by
        simp only [SerializeTextureInfo, TextureInfo.textureId, TextureInfo.texCoord,
          TextureInfo.prop, addOptionalMemberIndex, hid, reduceIte, if_neg,
          getIndex, hfi, List.nil_append, hserp, Bind.bind, Except.bind]
      refine ⟨_, hser, ?_⟩
      have hidx : findMember "index"
          (("index", Json.num (n : ℚ)) ::
            (optMember (tc ≠ 0) "texCoord" (.num (tc : ℚ)) ++
              (("extensions", Json.obj ((TEXTURETRANSFORM_NAME, jtt) :: u)) :: extrasSeg ex))) =
          some (.num (n : ℚ)) := by
        simp [findMember_cons]
      have hext : findMember "extensions"
          (("index", Json.num (n : ℚ)) ::
            (optMember (tc ≠ 0) "texCoord" (.num (tc : ℚ)) ++
              (("extensions", Json.obj ((TEXTURETRANSFORM_NAME, jtt) :: u)) :: extrasSeg ex))) =
          some (.obj ((TEXTURETRANSFORM_NAME, jtt) :: u)) := by
        simp [findMember_cons, findMember_skip, findMember_skip_extras]
      have hPP := parseProperty_tt d2 _ u jtt t hext hdtt hnames
      have hex2 : findMember "extras"
          (("index", Json.num (n : ℚ)) ::
            (optMember (tc ≠ 0) "texCoord" (.num (tc : ℚ)) ++
              (("extensions", Json.obj ((TEXTURETRANSFORM_NAME, jtt) :: u)) :: extrasSeg ex))) = ex := by
        simp [findMember_cons, findMember_skip, findMember_extras_extrasSeg]
      rw [hex2] at hPP
      rw [emplaceAll_append u [] hnodup (fun e _ => rfl), List.nil_append] at hPP
      have htcv : getMemberUIntOrDefault
          (("index", Json.num (n : ℚ)) ::
            (optMember (tc ≠ 0) "texCoord" (.num (tc : ℚ)) ++
              (("extensions", Json.obj ((TEXTURETRANSFORM_NAME, jtt) :: u)) :: extrasSeg ex)))
          "texCoord" 0 = .ok tc := by
        have hfmtc : findMember "texCoord"
            (("index", Json.num (n : ℚ)) ::
              (optMember (tc ≠ 0) "texCoord" (.num (tc : ℚ)) ++
                (("extensions", Json.obj ((TEXTURETRANSFORM_NAME, jtt) :: u)) :: extrasSeg ex))) =
            if tc ≠ 0 then some (.num (tc : ℚ)) else none := by
          simp [findMember_cons, findMember_skip, findMember_hit, findMember_skip_extras]
        by_cases h0 : tc = 0
        · subst h0
          rw [if_neg (by simp)] at hfmtc
          exact getMemberUIntOrDefault_none 0 hfmtc
        · rw [if_pos h0] at hfmtc
          exact getMemberUIntOrDefault_some 0 hfmtc htc32
      have := parseTexInfo_char (khrDeserializerWith d2) _ n tc _ hidx hn32 htcv hPP
      simpa using this

/-- A texture-reference member emitted only when the reference is present. -/
def memberSeg (name : String) : Option Json → List (String × Json)
  | some v => [(name, v)]
  | none => []

/-- Scanning past a texture-reference member with a different name. -/
theorem findMember_skip_memberSeg (n m : String) (h : m ≠ n) (o : Option Json)
    (rest : List (String × Json)) :
    findMember n (memberSeg m o ++ rest) = findMember n rest := by
  cases o <;> simp [memberSeg, findMember_cons, h]

/-- Scanning a texture-reference member with the sought name. -/
theorem findMember_hit_memberSeg (n : String) (o : Option Json)
    (rest : List (String × Json)) :
    findMember n (memberSeg n o ++ rest) = o.or (findMember n rest) := by
  cases o <;> simp [memberSeg, findMember_cons]

/-- A reference passing `isDefaultTexInfo` is the default-constructed
texture reference. -/
theorem isDefaultTexInfo_eq {ti : TextureInfo} (h : isDefaultTexInfo ti = true) :
    ti = defaultTexInfo := by
  obtain ⟨id, tc, p⟩ := ti
  obtain ⟨ex, u, rp, ru, rd, rt⟩ := p
  simp only [isDefaultTexInfo, isEmptyProp, TextureInfo.textureId, TextureInfo.texCoord,
    TextureInfo.prop, GLTFProperty.extras, GLTFProperty.unregistered, GLTFProperty.regPbr,
    GLTFProperty.regUnlit, GLTFProperty.regDraco, GLTFProperty.regTexTransform,
    Bool.and_eq_true, decide_eq_true_eq, Option.isNone_iff_eq_none,
    List.isEmpty_iff] at h
  obtain ⟨⟨ha, hb⟩, ⟨⟨⟨⟨hc, hd⟩, he⟩, hf⟩, hg⟩, hh⟩ := h
  subst ha; subst hb; subst hc; subst hd; subst he; subst hf; subst hg; subst hh
  rfl

/-- `DeserializePBRSpecGloss`, characterised by the member-conditional
reads its steps perform. -/
theorem deserializePBR_char (d : ExtensionDeserializer) (ms : List (String × Json))
    (df : ℚ × ℚ × ℚ × ℚ) (dt : TextureInfo) (sf : ℚ × ℚ × ℚ) (gf : ℚ)
    (st : TextureInfo) (p : GLTFProperty)
    (hdf : memberOrElse ms "diffuseFactor" readColor4
      (.ok (((1 : ℚ), (1 : ℚ), (1 : ℚ), (1 : ℚ)))) = .ok df)
    (hdt : memberOrElse ms "diffuseTexture" (fun v => ParseTextureInfo d v)
      (.ok defaultTexInfo) = .ok dt)
    (hsf : memberOrElse ms "specularFactor" readColor3
      (.ok (((1 : ℚ), (1 : ℚ), (1 : ℚ)))) = .ok sf)
    (hgf : getMemberDoubleOrDefault ms "glossinessFactor" 1 = .ok gf)
    (hst : memberOrElse ms "specularGlossinessTexture" (fun v => ParseTextureInfo d v)
      (.ok defaultTexInfo) = .ok st)
    (hPP : ParseProperty d .pbrSpecularGlossiness ms emptyProp = .ok p) :
    DeserializePBRSpecGloss (.obj ms) d =
      .ok (.pbrSpecularGlossiness (.mk df dt sf gf st p)) := by
  simp only [DeserializePBRSpecGloss, Json.asObjMembers]
  rw [exc_bind_ok]
  try simp only []
  rw [hdf]
  rw [exc_bind_ok]
  try simp only []
  rw [hdt]
  rw [exc_bind_ok]
  try simp only []
  rw [hsf]
  rw [exc_bind_ok]
  try simp only []
  rw [hgf]
  rw [exc_bind_ok]
  try simp only []
  rw [hst]
  rw [exc_bind_ok]
  try simp only []
  rw [hPP]
  rw [exc_bind_ok]

/-- A default-elided colour member reads back to the field value. -/
theorem memberOrElse_color4 (ms : List (String × Json)) (name : String)
    (df dflt : ℚ × ℚ × ℚ × ℚ)
    (hfm : findMember name ms = if df ≠ dflt then some (jsonArray4 df) else none) :
    memberOrElse ms name readColor4 (.ok dflt) = .ok df := by
  by_cases h : df = dflt
  · subst h
    rw [if_neg (not_not_intro rfl)] at hfm
    rw [memberOrElse_none _ _ hfm]
  · rw [if_pos h] at hfm
    rw [memberOrElse_some _ _ hfm, readColor4_jsonArray4]

/-- A default-elided colour member reads back to the field value. -/
theorem memberOrElse_color3 (ms : List (String × Json)) (name : String)
    (sf dflt : ℚ × ℚ × ℚ)
    (hfm : findMember name ms = if sf ≠ dflt then some (jsonArray3 sf) else none) :
    memberOrElse ms name readColor3 (.ok dflt) = .ok sf := by
  by_cases h : sf = dflt
  · subst h
    rw [if_neg (not_not_intro rfl)] at hfm
    rw [memberOrElse_none _ _ hfm]
  · rw [if_pos h] at hfm
    rw [memberOrElse_some _ _ hfm, readColor3_jsonArray3]

/-- A default-elided scalar member reads back to the field value. -/
theorem getMemberDouble_opt (ms : List (String × Json)) (name : String)
    (gf dflt : ℚ)
    (hfm : findMember name ms = if gf ≠ dflt then some (.num gf) else none) :
    getMemberDoubleOrDefault ms name dflt = .ok gf := by
  by_cases h : gf = dflt
  · subst h
    rw [if_neg (not_not_intro rfl)] at hfm
    exact getMemberDoubleOrDefault_none gf hfm
  · rw [if_pos h] at hfm
    exact getMemberDoubleOrDefault_some dflt hfm

/-- Re-parsing the serialized form of a valid `PBRSpecularGlossiness`
reproduces it exactly (stated over the normalized member list the
serializer emits, with the texture members abstracted as optional
segments). -/
theorem pbr_parse_serialized (d2 : ExtensionDeserializer)
    (df : ℚ × ℚ × ℚ × ℚ) (dt : TextureInfo) (sf : ℚ × ℚ × ℚ) (gf : ℚ)
    (st : TextureInfo) (ex : Option Json) (u : List (String × Json))
    (odt ost : Option Json)
    (hodt : (odt = none ∧ dt = defaultTexInfo) ∨
      (∃ v, odt = some v ∧ ParseTextureInfo (khrDeserializerWith d2) v = .ok dt))
    (host : (ost = none ∧ st = defaultTexInfo) ∨
      (∃ v, ost = some v ∧ ParseTextureInfo (khrDeserializerWith d2) v = .ok st))
    (hnodup : (u.map Prod.fst).Nodup)
    (hnames : ∀ e ∈ u, e.1 ∉ khrNames) :
    DeserializePBRSpecGloss (.obj
      (optMember (df ≠ ((1 : ℚ), (1 : ℚ), (1 : ℚ), (1 : ℚ))) "diffuseFactor" (jsonArray4 df) ++
        (memberSeg "diffuseTexture" odt ++
          (optMember (sf ≠ ((1 : ℚ), (1 : ℚ), (1 : ℚ))) "specularFactor" (jsonArray3 sf) ++
            (optMember (gf ≠ (1 : ℚ)) "glossinessFactor" (.num gf) ++
              (memberSeg "specularGlossinessTexture" ost ++
                (optMember (!u.isEmpty) "extensions" (.obj u) ++ extrasSeg ex)))))))
      (khrDeserializerWith d2) =
      .ok (.pbrSpecularGlossiness (.mk df dt sf gf st (.mk ex u none none none none))) := by
  have hfmdf : findMember "diffuseFactor"
      (optMember (df ≠ ((1 : ℚ), (1 : ℚ), (1 : ℚ), (1 : ℚ))) "diffuseFactor" (jsonArray4 df) ++
        (memberSeg "diffuseTexture" odt ++
          (optMember (sf ≠ ((1 : ℚ), (1 : ℚ), (1 : ℚ))) "specularFactor" (jsonArray3 sf) ++
            (optMember (gf ≠ (1 : ℚ)) "glossinessFactor" (.num gf) ++
              (memberSeg "specularGlossinessTexture" ost ++
                (optMember (!u.isEmpty) "extensions" (.obj u) ++ extrasSeg ex)))))) =
      if df ≠ ((1 : ℚ), (1 : ℚ), (1 : ℚ), (1 : ℚ)) then some (jsonArray4 df) else none := by
    simp [findMember_hit, findMember_skip, findMember_skip_memberSeg,
      findMember_hit_memberSeg, findMember_skip_extras]
  have hfmdt : findMember "diffuseTexture"
      (optMember (df ≠ ((1 : ℚ), (1 : ℚ), (1 : ℚ), (1 : ℚ))) "diffuseFactor" (jsonArray4 df) ++
        (memberSeg "diffuseTexture" odt ++
          (optMember (sf ≠ ((1 : ℚ), (1 : ℚ), (1 : ℚ))) "specularFactor" (jsonArray3 sf) ++
            (optMember (gf ≠ (1 : ℚ)) "glossinessFactor" (.num gf) ++
              (memberSeg "specularGlossinessTexture" ost ++
                (optMember (!u.isEmpty) "extensions" (.obj u) ++ extrasSeg ex)))))) = odt := by
    simp [findMember_hit, findMember_skip, findMember_skip_memberSeg,
      findMember_hit_memberSeg, findMember_skip_extras]
  have hfmsf : findMember "specularFactor"
      (optMember (df ≠ ((1 : ℚ), (1 : ℚ), (1 : ℚ), (1 : ℚ))) "diffuseFactor" (jsonArray4 df) ++
        (memberSeg "diffuseTexture" odt ++
          (optMember (sf ≠ ((1 : ℚ), (1 : ℚ), (1 : ℚ))) "specularFactor" (jsonArray3 sf) ++
            (optMember (gf ≠ (1 : ℚ)) "glossinessFactor" (.num gf) ++
              (memberSeg "specularGlossinessTexture" ost ++
                (optMember (!u.isEmpty) "extensions" (.obj u) ++ extrasSeg ex)))))) =
      if sf ≠ ((1 : ℚ), (1 : ℚ), (1 : ℚ)) then some (jsonArray3 sf) else none := by
    simp [findMember_hit, findMember_skip, findMember_skip_memberSeg,
      findMember_hit_memberSeg, findMember_skip_extras]
  have hfmgf : findMember "glossinessFactor"
      (optMember (df ≠ ((1 : ℚ), (1 : ℚ), (1 : ℚ), (1 : ℚ))) "diffuseFactor" (jsonArray4 df) ++
        (memberSeg "diffuseTexture" odt ++
          (optMember (sf ≠ ((1 : ℚ), (1 : ℚ), (1 : ℚ))) "specularFactor" (jsonArray3 sf) ++
            (optMember (gf ≠ (1 : ℚ)) "glossinessFactor" (.num gf) ++
              (memberSeg "specularGlossinessTexture" ost ++
                (optMember (!u.isEmpty) "extensions" (.obj u) ++ extrasSeg ex)))))) =
      if gf ≠ (1 : ℚ) then some (.num gf) else none := by
    simp [findMember_hit, findMember_skip, findMember_skip_memberSeg,
      findMember_hit_memberSeg, findMember_skip_extras]
  have hfmst : findMember "specularGlossinessTexture"
      (optMember (df ≠ ((1 : ℚ), (1 : ℚ), (1 : ℚ), (1 : ℚ))) "diffuseFactor" (jsonArray4 df) ++
        (memberSeg "diffuseTexture" odt ++
          (optMember (sf ≠ ((1 : ℚ), (1 : ℚ), (1 : ℚ))) "specularFactor" (jsonArray3 sf) ++
            (optMember (gf ≠ (1 : ℚ)) "glossinessFactor" (.num gf) ++
              (memberSeg "specularGlossinessTexture" ost ++
                (optMember (!u.isEmpty) "extensions" (.obj u) ++ extrasSeg ex)))))) = ost := by
    simp [findMember_hit, findMember_skip, findMember_skip_memberSeg,
      findMember_hit_memberSeg, findMember_skip_extras]
  have hext : findMember "extensions"
      (optMember (df ≠ ((1 : ℚ), (1 : ℚ), (1 : ℚ), (1 : ℚ))) "diffuseFactor" (jsonArray4 df) ++
        (memberSeg "diffuseTexture" odt ++
          (optMember (sf ≠ ((1 : ℚ), (1 : ℚ), (1 : ℚ))) "specularFactor" (jsonArray3 sf) ++
            (optMember (gf ≠ (1 : ℚ)) "glossinessFactor" (.num gf) ++
              (memberSeg "specularGlossinessTexture" ost ++
                (optMember (!u.isEmpty) "extensions" (.obj u) ++ extrasSeg ex)))))) =
      if (!u.isEmpty) = true then some (.obj u) else none := by
    simp [findMember_hit, findMember_skip, findMember_skip_memberSeg,
      findMember_hit_memberSeg, findMember_skip_extras]
  have hex2 : findMember "extras"
      (optMember (df ≠ ((1 : ℚ), (1 : ℚ), (1 : ℚ), (1 : ℚ))) "diffuseFactor" (jsonArray4 df) ++
        (memberSeg "diffuseTexture" odt ++
          (optMember (sf ≠ ((1 : ℚ), (1 : ℚ), (1 : ℚ))) "specularFactor" (jsonArray3 sf) ++
            (optMember (gf ≠ (1 : ℚ)) "glossinessFactor" (.num gf) ++
              (memberSeg "specularGlossinessTexture" ost ++
                (optMember (!u.isEmpty) "extensions" (.obj u) ++ extrasSeg ex)))))) = ex := by
    simp [findMember_skip, findMember_skip_memberSeg, findMember_extras_extrasSeg]
  have hPP := parseProperty_optUnreg (khrDeserializerWith d2) .pbrSpecularGlossiness
    (khrOnly_with d2) _ u hext hnames hnodup
  rw [hex2] at hPP
  have hdt2 : memberOrElse
      (optMember (df ≠ ((1 : ℚ), (1 : ℚ), (1 : ℚ), (1 : ℚ))) "diffuseFactor" (jsonArray4 df) ++
        (memberSeg "diffuseTexture" odt ++
          (optMember (sf ≠ ((1 : ℚ), (1 : ℚ), (1 : ℚ))) "specularFactor" (jsonArray3 sf) ++
            (optMember (gf ≠ (1 : ℚ)) "glossinessFactor" (.num gf) ++
              (memberSeg "specularGlossinessTexture" ost ++
                (optMember (!u.isEmpty) "extensions" (.obj u) ++ extrasSeg ex))))))
      "diffuseTexture" (fun v => ParseTextureInfo (khrDeserializerWith d2) v)
      (.ok defaultTexInfo) = .ok dt := by
    rcases hodt with ⟨ho, hd⟩ | ⟨v, ho, hp⟩
    · subst ho; subst hd
      exact memberOrElse_none _ _ hfmdt
    · subst ho
      rw [memberOrElse_some _ _ hfmdt]
      exact hp
  have hst2 : memberOrElse
      (optMember (df ≠ ((1 : ℚ), (1 : ℚ), (1 : ℚ), (1 : ℚ))) "diffuseFactor" (jsonArray4 df) ++
        (memberSeg "diffuseTexture" odt ++
          (optMember (sf ≠ ((1 : ℚ), (1 : ℚ), (1 : ℚ))) "specularFactor" (jsonArray3 sf) ++
            (optMember (gf ≠ (1 : ℚ)) "glossinessFactor" (.num gf) ++
              (memberSeg "specularGlossinessTexture" ost ++
                (optMember (!u.isEmpty) "extensions" (.obj u) ++ extrasSeg ex))))))
      "specularGlossinessTexture" (fun v => ParseTextureInfo (khrDeserializerWith d2) v)
      (.ok defaultTexInfo) = .ok st := by
    rcases host with ⟨ho, hd⟩ | ⟨v, ho, hp⟩
    · subst ho; subst hd
      exact memberOrElse_none _ _ hfmst
    · subst ho
      rw [memberOrElse_some _ _ hfmst]
      exact hp
  exact deserializePBR_char (khrDeserializerWith d2) _ df dt sf gf st _
    (memberOrElse_color4 _ _ df _ hfmdf) hdt2
    (memberOrElse_color3 _ _ sf _ hfmsf)
    (getMemberDouble_opt _ _ gf _ hfmgf) hst2 hPP

/-- The round trip of a valid `PBRSpecularGlossiness` through serialize and
deserialize (with the KHR registries) reproduces it exactly. -/
theorem pbr_roundtrip (doc : Document) (s2 : ExtensionSerializer)
    (d2 : ExtensionDeserializer) (hk : KhrOnlyNames d2)
    (sg : PBRSpecularGlossiness) (hv : ValidPBRSpecGloss doc sg) :
    ∃ j, SerializePBRSpecGloss sg doc (khrSerializerWith s2) = .ok j ∧
      DeserializePBRSpecGloss j (khrDeserializerWith d2) =
        .ok (.pbrSpecularGlossiness sg) := by
  obtain ⟨df, dt, sf, gf, st, p⟩ := sg
  obtain ⟨ex, u, rp, ru, rd, rt⟩ := p
  obtain ⟨hbase, hdtv, hstv⟩ := hv
  obtain ⟨hnodup, hnames, hrp, hru, hrd, hrt⟩ := hbase
  simp only [GLTFProperty.unregistered, GLTFProperty.regPbr, GLTFProperty.regUnlit,
    GLTFProperty.regDraco, GLTFProperty.regTexTransform] at hnodup hnames hrp hru hrd hrt
  subst hrp; subst hru; subst hrd; subst hrt
  have hdtp : (∃ odt, ((odt = none ∧ dt = defaultTexInfo) ∨
      (∃ v, odt = some v ∧ ParseTextureInfo (khrDeserializerWith d2) v = .ok dt)) ∧
      (if dt.textureId ≠ "" then
        ∃ jv, odt = some jv ∧
          SerializeTextureInfo doc dt doc.textures (khrSerializerWith s2) = .ok jv
      else odt = none)) := by
    rcases hdtv with hdef | ⟨hid, hres, htc32, hprop⟩
    · refine ⟨none, Or.inl ⟨rfl, isDefaultTexInfo_eq hdef⟩, ?_⟩
      have : dt.textureId = "" := by
        rw [isDefaultTexInfo_eq hdef]; rfl
      simp [this]
    · obtain ⟨jv, hsv, hpv⟩ := texinfo_roundtrip doc s2 d2 hk dt hid hres htc32 hprop
      refine ⟨some jv, Or.inr ⟨jv, rfl, hpv⟩, ?_⟩
      simp [hid, hsv]
  have hstp : (∃ ost, ((ost = none ∧ st = defaultTexInfo) ∨
      (∃ v, ost = some v ∧ ParseTextureInfo (khrDeserializerWith d2) v = .ok st)) ∧
      (if st.textureId ≠ "" then
        ∃ jv, ost = some jv ∧
          SerializeTextureInfo doc st doc.textures (khrSerializerWith s2) = .ok jv
      else ost = none)) := by
    rcases hstv with hdef | ⟨hid, hres, htc32, hprop⟩
    · refine ⟨none, Or.inl ⟨rfl, isDefaultTexInfo_eq hdef⟩, ?_⟩
      have : st.textureId = "" := by
        rw [isDefaultTexInfo_eq hdef]; rfl
      simp [this]
    · obtain ⟨jv, hsv, hpv⟩ := texinfo_roundtrip doc s2 d2 hk st hid hres htc32 hprop
      refine ⟨some jv, Or.inr ⟨jv, rfl, hpv⟩, ?_⟩
      simp [hid, hsv]
  obtain ⟨odt, hodt, hdtser⟩ := hdtp
  obtain ⟨ost, host, hstser⟩ := hstp
  have hser : SerializePBRSpecGloss
      (.mk df dt sf gf st (.mk ex u none none none none)) doc (khrSerializerWith s2) =
      .ok (.obj
        ((((((optMember (df ≠ ((1 : ℚ), (1 : ℚ), (1 : ℚ), (1 : ℚ))) "diffuseFactor" (jsonArray4 df) ++
            memberSeg "diffuseTexture" odt) ++
            optMember (sf ≠ ((1 : ℚ), (1 : ℚ), (1 : ℚ))) "specularFactor" (jsonArray3 sf)) ++
            optMember (gf ≠ (1 : ℚ)) "glossinessFactor" (.num gf)) ++
            memberSeg "specularGlossinessTexture" ost) ++
            optMember (!u.isEmpty) "extensions" (.obj u)) ++ extrasSeg ex)) := by
    by_cases hdtid : dt.textureId ≠ ""
    · rw [if_pos hdtid] at hdtser
      obtain ⟨jv, ho, hsv⟩ := hdtser
      subst ho
      by_cases hstid : st.textureId ≠ ""
      · rw [if_pos hstid] at hstser
        obtain ⟨jw, ho2, hsw⟩ := hstser
        subst ho2
        simp only [SerializePBRSpecGloss, hdtid, hstid, if_true, reduceIte, hsv, hsw,
          serializeProperty_slots_none, memberSeg, Bind.bind, Except.bind]
        try rw [if_pos hdtid]
        try rw [if_neg hdtid]
        try rw [if_pos hstid]
        try rw [if_neg hstid]
        try simp only [hsv, hsw, serializeProperty_slots_none, memberSeg,
          List.append_nil, Bind.bind, Except.bind]
      · rw [if_neg hstid] at hstser
        subst hstser
        simp only [SerializePBRSpecGloss, hdtid, hstid, if_true, if_false, reduceIte,
          hsv, serializeProperty_slots_none, memberSeg, List.append_nil,
          Bind.bind, Except.bind]
        try rw [if_pos hdtid]
        try rw [if_neg hdtid]
        try rw [if_pos hstid]
        try rw [if_neg hstid]
        try simp only [hsv, hsw, serializeProperty_slots_none, memberSeg,
          List.append_nil, Bind.bind, Except.bind]
    · rw [if_neg hdtid] at hdtser
      subst hdtser
      by_cases hstid : st.textureId ≠ ""
      · rw [if_pos hstid] at hstser
        obtain ⟨jw, ho2, hsw⟩ := hstser
        subst ho2
        simp only [SerializePBRSpecGloss, hdtid, hstid, if_true, if_false, reduceIte,
          hsw, serializeProperty_slots_none, memberSeg, List.append_nil,
          Bind.bind, Except.bind]
        try rw [if_pos hdtid]
        try rw [if_neg hdtid]
        try rw [if_pos hstid]
        try rw [if_neg hstid]
        try simp only [hsv, hsw, serializeProperty_slots_none, memberSeg,
          List.append_nil, Bind.bind, Except.bind]
      · rw [if_neg hstid] at hstser
        subst hstser
        simp only [SerializePBRSpecGloss, hdtid, hstid, if_false, reduceIte,
          serializeProperty_slots_none, memberSeg, List.append_nil,
          Bind.bind, Except.bind]
        try rw [if_pos hdtid]
        try rw [if_neg hdtid]
        try rw [if_pos hstid]
        try rw [if_neg hstid]
        try simp only [hsv, hsw, serializeProperty_slots_none, memberSeg,
          List.append_nil, Bind.bind, Except.bind]
  refine ⟨_, hser, ?_⟩
  have := pbr_parse_serialized d2 df dt sf gf st ex u odt ost hodt host hnodup hnames
  simpa only [List.append_assoc] using this

/-- `DracoMeshCompression.eqData` is reflexive on valid instances. -/
theorem dracoEqData_refl (doc : Document) (dr : DracoMeshCompression)
    (hv : ValidDraco doc dr) : DracoMeshCompression.eqData dr dr = true := by
  obtain ⟨hvb, _⟩ := hv
  obtain ⟨bv, attrs, p⟩ := dr
  obtain ⟨ex, u, rp, ru, rd, rt⟩ := p
  obtain ⟨hbase, hanodup, _, _⟩ := hvb
  obtain ⟨hnodup, _, hrp, hru, hrd, hrt⟩ := hbase
  simp only [GLTFProperty.unregistered, GLTFProperty.regPbr, GLTFProperty.regUnlit,
    GLTFProperty.regDraco, GLTFProperty.regTexTransform] at hnodup hrp hru hrd hrt
  subst hrp; subst hru; subst hrd; subst hrt
  simp [DracoMeshCompression.eqData, equalsProp_slots_none_refl ex u hnodup,
    attrMapEq_refl hanodup]

/-- `GLTFProperty.EqualsProp` is reflexive on a texture reference's base
property (which may carry a registered `TextureTransform`). -/
theorem equalsProp_texprop_refl (ex : Option Json) (u : List (String × Json))
    (rt : Option TextureTransform) (hnodup : (u.map Prod.fst).Nodup)
    (hvt : ∀ t, rt = some t → ValidTextureTransform t) :
    GLTFProperty.EqualsProp (.mk ex u none none none rt)
      (.mk ex u none none none rt) = true := by
  cases rt with
  | none => exact equalsProp_slots_none_refl ex u hnodup
  | some t =>
      simp [GLTFProperty.EqualsProp, optJsonEq_refl, unregMapEq_refl hnodup,
        optPbrEq, optUnlitEq, optDracoEq, optTexTransformEq,
        ttEqData_refl t (hvt t rfl)]

/-- `TextureInfo.texEq` is reflexive on valid texture-reference fields. -/
theorem texEq_refl_of (doc : Document) (ti : TextureInfo)
    (h : ValidTexRef doc ti) : TextureInfo.texEq ti ti = true := by
  rcases h with hdef | ⟨_, _, _, hp⟩
  · rw [isDefaultTexInfo_eq hdef]
    simp [defaultTexInfo, emptyProp, TextureInfo.texEq, GLTFProperty.EqualsProp,
      optJsonEq, unregMapEq, optPbrEq, optUnlitEq, optDracoEq, optTexTransformEq]
  · obtain ⟨id, tc, p⟩ := ti
    obtain ⟨ex, u, rp, ru, rd, rt⟩ := p
    obtain ⟨hnodup, _, hrp, hru, hrd, htt⟩ := hp
    simp only [GLTFProperty.unregistered, GLTFProperty.regPbr, GLTFProperty.regUnlit,
      GLTFProperty.regDraco, GLTFProperty.regTexTransform] at hnodup hrp hru hrd htt
    subst hrp; subst hru; subst hrd
    simp [TextureInfo.texEq,
      equalsProp_texprop_refl ex u rt hnodup (fun t ht => (htt t ht).1)]

/-- `PBRSpecularGlossiness.eqData` is reflexive on valid instances. -/
theorem pbrEqData_refl (doc : Document) (sg : PBRSpecularGlossiness)
    (hv : ValidPBRSpecGloss doc sg) :
    PBRSpecularGlossiness.eqData sg sg = true := by
  obtain ⟨df, dt, sf, gf, st, p⟩ := sg
  obtain ⟨ex, u, rp, ru, rd, rt⟩ := p
  obtain ⟨hbase, hdtv, hstv⟩ := hv
  obtain ⟨hnodup, _, hrp, hru, hrd, hrt⟩ := hbase
  simp only [GLTFProperty.unregistered, GLTFProperty.regPbr, GLTFProperty.regUnlit,
    GLTFProperty.regDraco, GLTFProperty.regTexTransform] at hnodup hrp hru hrd hrt
  subst hrp; subst hru; subst hrd; subst hrt
  simp [PBRSpecularGlossiness.eqData, equalsProp_slots_none_refl ex u hnodup,
    texEq_refl_of doc dt hdtv, texEq_refl_of doc st hstv]

/-- The `Except` bind of a failure propagates the failure. -/
theorem exc_bind_err {α β : Type} (e : Err) (f : α → Except Err β) :
    (Except.error e >>= f : Except Err β) = .error e := rfl

/-- The element-copy loop succeeds on a list of numbers, returning their
values in order. -/
theorem listGetDoubles_map : ∀ l : List ℚ, listGetDoubles (l.map Json.num) = .ok l := by
  intro l
  induction l with
  | nil => rfl
  | cons x xs ih => simp [listGetDoubles, Json.getDouble, ih, Bind.bind, Except.bind]

/-- The unchecked index reads of the diffuse-factor loop go out of bounds on
an array of fewer than four numbers. -/
theorem readColor4_short (l : List ℚ) (h : l.length < 4) :
    readColor4 (.arr (l.map Json.num)) = .error .outOfBounds := by
  match l, h with
  | [], _ => rfl
  | [a], _ => rfl
  | [a, b], _ => rfl
  | [a, b, c], _ => rfl

/-- The unchecked index reads of the specular-factor loop go out of bounds
on an array of fewer than three numbers. -/
theorem readColor3_short (l : List ℚ) (h : l.length < 3) :
    readColor3 (.arr (l.map Json.num)) = .error .outOfBounds := by
  match l, h with
  | [], _ => rfl
  | [a], _ => rfl
  | [a, b], _ => rfl

/-- The diffuse-factor loop reads exactly the first four values of a longer
array and ignores the rest (no length validation). -/
theorem readColor4_long (a b c dd : ℚ) (rest : List ℚ) :
    readColor4 (.arr ((a :: b :: c :: dd :: rest).map Json.num)) = .ok (a, b, c, dd) := by
  simp [readColor4, Json.asArrElems, listGetDoubles, Json.getDouble, listGetDoubles_map,
    vecAt, Bind.bind, Except.bind]

/-- The Draco attribute loop stops with a schema error at the first value
that fails `IsInt`. -/
theorem readDracoAttrs_err (n : String) (v : Json) (hv : v.isInt = false) :
    ∀ (pre : List (String × Json)) (acc : List (String × ℕ))
    (rest : List (String × Json)), (∀ a ∈ pre, a.2.isInt = true) →
    readDracoAttrs acc (pre ++ (n, v) :: rest) = .error (.attributeNotInt n) := by
  intro pre
  induction pre with
  | nil =>
      intro acc rest _
      simp [readDracoAttrs, hv]
  | cons hd tl ih =>
      intro acc rest hpre
      obtain ⟨m, w⟩ := hd
      have hw : w.isInt = true := hpre (m, w) (List.mem_cons_self _ _)
      have hw2 : ∃ q, w = Json.num q := by
        cases w <;> simp_all [Json.isInt]
      obtain ⟨q, hq⟩ := hw2
      subst hq
      simp only [List.cons_append, readDracoAttrs, hw, if_true, reduceIte]
      exact ih _ _ (fun a ha => hpre a (List.mem_cons_of_mem _ ha))

/-- `DeserializeDracoMeshCompression` fails with a schema error when the
`"attributes"` member is not an object (with no `"bufferView"` present). -/
theorem deserializeDraco_attrsNotObject (d : ExtensionDeserializer)
    (ms : List (String × Json)) (v : Json)
    (hbvm : findMember "bufferView" ms = none)
    (ham : findMember "attributes" ms = some v)
    (hv : ∀ avs, v ≠ .obj avs) :
    DeserializeDracoMeshCompression (.obj ms) d = .error .attributesNotObject := by
  simp only [DeserializeDracoMeshCompression, Json.asObjMembers]
  rw [exc_bind_ok]
  try simp only []
  rw [hbvm]
  try simp only []
  rw [exc_bind_ok]
  try simp only []
  rw [ham]
  cases v with
  | obj avs => exact absurd rfl (hv avs)
  | null => rfl
  | bool b => rfl
  | num q => rfl
  | str s => rfl
  | arr xs => rfl

/-- `DeserializeDracoMeshCompression` propagates the attribute loop's schema
error (with no `"bufferView"` present). -/
theorem deserializeDraco_attrErr (d : ExtensionDeserializer)
    (ms avs : List (String × Json)) (e : Err)
    (hbvm : findMember "bufferView" ms = none)
    (ham : findMember "attributes" ms = some (.obj avs))
    (hattrs : readDracoAttrs [] avs = .error e) :
    DeserializeDracoMeshCompression (.obj ms) d = .error e := by
  simp only [DeserializeDracoMeshCompression, Json.asObjMembers]
  rw [exc_bind_ok]
  try simp only []
  rw [hbvm]
  try simp only []
  rw [exc_bind_ok]
  try simp only []
  rw [ham]
  try simp only []
  rw [hattrs]
  rfl

/-- The registered-extension loop processes an initial successful segment
and then behaves as the loop on the remainder. -/
theorem serializeRegistered_append (doc : Document) (s : ExtensionSerializer)
    (k : OwnerKind) (p : GLTFProperty) :
    ∀ (pre rest : List Extension) (ms0 : List (String × Json)),
    SerializeRegistered doc s k p pre = .ok ms0 →
    SerializeRegistered doc s k p (pre ++ rest) =
      (SerializeRegistered doc s k p rest).map (fun msr => ms0 ++ msr) := by
  intro pre
  induction pre with
  | nil =>
      intro rest ms0 h
      simp only [SerializeRegistered] at h
      cases h
      simp only [List.nil_append]
      cases hr : SerializeRegistered doc s k p rest <;> simp [Except.map]
  | cons e tl ih =>
      intro rest ms0 h
      simp only [SerializeRegistered] at h
      cases hpair : s.SerializeExt e k doc with
      | error err => rw [hpair] at h; cases h
      | ok pair =>
          rw [hpair] at h
          simp only [exc_bind_ok] at h
          by_cases hcol : p.HasUnregisteredExtension pair.name = true
          · rw [if_pos hcol] at h; cases h
          · rw [if_neg hcol] at h
            by_cases hused : doc.extensionsUsed.contains pair.name = true
            · rw [if_neg (by simp_all)] at h
              cases htl : SerializeRegistered doc s k p tl with
              | error err => rw [htl] at h; simp [Bind.bind, Except.bind] at h
              | ok tlms =>
                  rw [htl] at h
                  simp only [Bind.bind, Except.bind, Except.ok.injEq] at h
                  subst h
                  simp only [List.cons_append, SerializeRegistered, hpair, exc_bind_ok]
                  rw [if_neg hcol, if_neg (by simp_all)]
                  simp only [List.append_eq]
                  rw [ih rest tlms htl]
                  cases SerializeRegistered doc s k p rest <;>
                    simp [Except.map, Bind.bind, Except.bind]
            · rw [if_pos (by simp_all)] at h; cases h

/-- A failure of the registered-extension loop aborts the whole extension
serialization of the entity. -/
theorem serializePropertyExtensions_err (doc : Document) (s : ExtensionSerializer)
    (k : OwnerKind) (p : GLTFProperty) (ms : List (String × Json)) (e2 : Err)
    (h : SerializeRegistered doc s k p p.GetRegistered = .error e2) :
    SerializePropertyExtensions doc p k ms s = .error e2 := by
  have hne : p.GetRegistered.isEmpty = false := by
    cases hg : p.GetRegistered with
    | nil => rw [hg] at h; cases h
    | cons a l => rfl
  simp only [SerializePropertyExtensions, hne, Bool.and_false, Bool.false_eq_true,
    if_false, reduceIte, h, Bind.bind, Except.bind]

/-- `DeserializeTextureTransform` fails with a schema error when a present
`"offset"` array does not have exactly two elements. -/
theorem deserializeTT_offset_err (d : ExtensionDeserializer)
    (ms : List (String × Json)) (xs : List Json)
    (hoff : findMember "offset" ms = some (.arr xs)) (hlen : xs.length ≠ 2) :
    DeserializeTextureTransform (.obj ms) d = .error (.wrongSize "offset") := by
  simp only [DeserializeTextureTransform, Json.asObjMembers]
  rw [exc_bind_ok]
  try simp only []
  rw [hoff]
  try simp only []
  simp only [Json.asArrElems, exc_bind_ok]
  rw [if_pos hlen]
  rfl

/-- `DeserializeTextureTransform` fails with a schema error when a present
`"scale"` array does not have exactly two elements while the earlier
`"offset"` and `"rotation"` reads went through. -/
theorem deserializeTT_scale_err (d : ExtensionDeserializer)
    (ms : List (String × Json)) (xs : List Json)
    (hoff : findMember "offset" ms = none ∨
      ∃ a b, findMember "offset" ms = some (.arr [.num a, .num b]))
    (hrot : findMember "rotation" ms = none ∨
      ∃ q, findMember "rotation" ms = some (.num q))
    (hsc : findMember "scale" ms = some (.arr xs)) (hlen : xs.length ≠ 2) :
    DeserializeTextureTransform (.obj ms) d = .error (.wrongSize "scale") := by
  have hrotv : ∃ q, getMemberDoubleOrDefault ms "rotation" 0 = .ok q := by
    rcases hrot with h | ⟨q, h⟩
    · exact ⟨0, getMemberDoubleOrDefault_none 0 h⟩
    · exact ⟨q, getMemberDoubleOrDefault_some 0 h⟩
  obtain ⟨q, hrotv⟩ := hrotv
  rcases hoff with hoffn | ⟨a, b, hoffs⟩
  · simp [DeserializeTextureTransform, Json.asObjMembers, Json.asArrElems,
      hoffn, hrotv, hsc, hlen, Bind.bind, Except.bind]
  · simp [DeserializeTextureTransform, Json.asObjMembers, Json.asArrElems,
      hoffs, hrotv, hsc, hlen, listGetDoubles, Json.getDouble, vecAt,
      Bind.bind, Except.bind]

/-- C1: for a member `(name, childJson)` of an entity's `"extensions"`
object, typed dispatch is attempted iff the deserializer registry has a
handler for `(name, runtime kind of the owner)` or a handler for that name
on any owner kind; when attempted, the dispatch result is attached via
`SetExtension`, and otherwise the raw pair is emplaced into the owner's
unregistered-extensions map. -/
theorem claim_C1 (d : ExtensionDeserializer) (k : OwnerKind) (node : GLTFProperty)
    (name : String) (child : Json) :
    ((∃ h2 ∈ d.handlers, h2.1 = (name, k)) ∨ (∃ h2 ∈ d.handlers, h2.1.1 = name) →
      ParseExtensionEntry d k node name child =
        (d.Deserialize ⟨name, child⟩ k).map node.SetExtension) ∧
    (¬ ((∃ h2 ∈ d.handlers, h2.1 = (name, k)) ∨ (∃ h2 ∈ d.handlers, h2.1.1 = name)) →
      ParseExtensionEntry d k node name child =
        .ok (node.emplaceUnregistered name child)) := by
  have hb : (d.HasHandlerFor name k || d.HasHandlerName name) = true ↔
      ((∃ h2 ∈ d.handlers, h2.1 = (name, k)) ∨ (∃ h2 ∈ d.handlers, h2.1.1 = name)) := by
    simp [ExtensionDeserializer.HasHandlerFor, ExtensionDeserializer.HasHandlerName,
      List.any_eq_true]
  constructor
  · intro h
    rw [ParseExtensionEntry, if_pos (hb.mpr h)]
  · intro h
    rw [ParseExtensionEntry, if_neg (fun hc => h (hb.mp hc))]

/-- A dispatch witness for `claim_C1`: the KHR registry dispatches the
`KHR_materials_unlit` member of a material and attaches the result. -/
theorem claim_C1_witness :
    ParseExtensionEntry khrDeserializer .material emptyProp UNLIT_NAME (.obj []) =
      (khrDeserializer.Deserialize ⟨UNLIT_NAME, .obj []⟩ .material).map
        emptyProp.SetExtension ∧
    ParseExtensionEntry khrDeserializer .material emptyProp "VENDOR_x" (.num 1) =
      .ok (emptyProp.emplaceUnregistered "VENDOR_x" (.num 1)) :=
  ⟨(claim_C1 khrDeserializer .material emptyProp UNLIT_NAME (.obj [])).1
      (Or.inl ⟨((UNLIT_NAME, OwnerKind.material),
          fun j => DeserializeUnlit j (khrDeserializerWith emptyDeserializer)),
        by simp [khrDeserializer, khrDeserializerWith], rfl⟩),
   (claim_C1 khrDeserializer .material emptyProp "VENDOR_x" (.num 1)).2
      (by
        intro h
        rcases h with ⟨h2, hm, he⟩ | ⟨h2, hm, he⟩ <;>
          (simp only [khrDeserializer, khrDeserializerWith, List.mem_cons,
            List.not_mem_nil, or_false] at hm
           rcases hm with rfl | rfl | rfl | rfl <;> simp_all [PBRSPECULARGLOSSINESS_NAME,
             UNLIT_NAME, DRACOMESHCOMPRESSION_NAME, TEXTURETRANSFORM_NAME]))⟩

/-- C8: when the registry knows none of the entry names, the
`ParseExtensions` loop never errors, and a lookup in the resulting
unregistered map sees the pre-existing binding or else the first occurrence
among the new entries — later duplicates are silently dropped. -/
theorem claim_C8 (d : ExtensionDeserializer) (k : OwnerKind) (p : GLTFProperty)
    (entries : List (String × Json))
    (h : ∀ e ∈ entries, (d.HasHandlerFor e.1 k || d.HasHandlerName e.1) = false) :
    ∃ p2, ParseExtensionEntries d k entries p = .ok p2 ∧
      ∀ n, findMember n p2.unregistered =
        (findMember n p.unregistered).or (findMember n entries) := by
  obtain ⟨ex, u, rp, ru, rd, rt⟩ := p
  refine ⟨_, parseEntries_no_dispatch d k entries h ex u rp ru rd rt, ?_⟩
  intro n
  simp only [GLTFProperty.unregistered]
  exact findMember_emplaceAll n entries u

/-- A witness for `claim_C8`: two entries with the same unrecognized name;
the lookup sees only the first one's raw text. -/
theorem claim_C8_witness :
    ∃ p2, ParseExtensionEntries emptyDeserializer .material
        [("VENDOR_x", .num 1), ("VENDOR_x", .num 2)] emptyProp = .ok p2 ∧
      ∀ n, findMember n p2.unregistered =
        (findMember n emptyProp.unregistered).or
          (findMember n [("VENDOR_x", .num 1), ("VENDOR_x", .num 2)]) :=
  claim_C8 emptyDeserializer .material emptyProp
    [("VENDOR_x", .num 1), ("VENDOR_x", .num 2)] (by intro e he; rfl)

/-- C3: serializing an entity whose registered-extension list contains an
extension whose recovered name is not in `document.extensionsUsed` fails
rather than emitting the extension; the error is the undeclared-usage
(referential-integrity) error unless the same name also collides with an
unregistered entry (the collision check runs first). -/
theorem claim_C3 (doc : Document) (s : ExtensionSerializer) (k : OwnerKind)
    (p : GLTFProperty) (ms : List (String × Json)) (pre post : List Extension)
    (e : Extension) (pair : ExtensionPair)
    (hreg : p.GetRegistered = pre ++ e :: post)
    (hpre : ∃ ms0, SerializeRegistered doc s k p pre = .ok ms0)
    (hser : s.SerializeExt e k doc = .ok pair)
    (hused : doc.extensionsUsed.contains pair.name = false) :
    SerializePropertyExtensions doc p k ms s =
      .error (if p.HasUnregisteredExtension pair.name then .collision pair.name
              else .notDeclared pair.name) := by
  obtain ⟨ms0, hpre⟩ := hpre
  have hloop : SerializeRegistered doc s k p p.GetRegistered =
      .error (if p.HasUnregisteredExtension pair.name then .collision pair.name
              else .notDeclared pair.name) := by
    rw [hreg, serializeRegistered_append doc s k p pre (e :: post) ms0 hpre]
    by_cases hcol : p.HasUnregisteredExtension pair.name = true
    · simp [SerializeRegistered, hser, hcol, Except.map, Bind.bind, Except.bind]
    · have hcol2 : p.HasUnregisteredExtension pair.name = false := by
        simpa using hcol
      have hmem : pair.name ∉ doc.extensionsUsed := by simpa using hused
      simp [SerializeRegistered, hser, hcol2, hused, hmem, Except.map, Bind.bind,
        Except.bind]
  exact serializePropertyExtensions_err doc s k p ms _ hloop

/-- A witness for `claim_C3`: a material holding an `Unlit` extension while
the document declares nothing in `extensionsUsed`. -/
theorem claim_C3_witness :
    SerializePropertyExtensions ⟨[], [], []⟩
        (.mk none [] none (some (.mk emptyProp)) none none) .material []
        khrSerializer =
      .error (.notDeclared UNLIT_NAME) := by
  simpa using claim_C3 ⟨[], [], []⟩ khrSerializer .material
    (.mk none [] none (some (.mk emptyProp)) none none) [] [] []
    (.unlit (.mk emptyProp)) ⟨UNLIT_NAME, .obj []⟩ rfl ⟨[], rfl⟩ rfl rfl

/-- C4: serializing an entity whose registered-extension list contains an
extension whose recovered name also occurs as a key of the entity's
unregistered-extensions map fails with the name-collision error. -/
theorem claim_C4 (doc : Document) (s : ExtensionSerializer) (k : OwnerKind)
    (p : GLTFProperty) (ms : List (String × Json)) (pre post : List Extension)
    (e : Extension) (pair : ExtensionPair)
    (hreg : p.GetRegistered = pre ++ e :: post)
    (hpre : ∃ ms0, SerializeRegistered doc s k p pre = .ok ms0)
    (hser : s.SerializeExt e k doc = .ok pair)
    (hcol : p.HasUnregisteredExtension pair.name = true) :
    SerializePropertyExtensions doc p k ms s = .error (.collision pair.name) := by
  obtain ⟨ms0, hpre⟩ := hpre
  have hloop : SerializeRegistered doc s k p p.GetRegistered =
      .error (.collision pair.name) := by
    rw [hreg, serializeRegistered_append doc s k p pre (e :: post) ms0 hpre]
    simp [SerializeRegistered, hser, hcol, Except.map, Bind.bind, Except.bind]
  exact serializePropertyExtensions_err doc s k p ms _ hloop

/-- A witness for `claim_C4`: a material holding both a registered `Unlit`
extension and an unregistered raw entry under the same name; the document
even declares the name, yet serialization fails with the collision error. -/
theorem claim_C4_witness :
    SerializePropertyExtensions ⟨[], [], [UNLIT_NAME]⟩
        (.mk none [(UNLIT_NAME, .obj [])] none (some (.mk emptyProp)) none none)
        .material [] khrSerializer =
      .error (.collision UNLIT_NAME) :=
  claim_C4 ⟨[], [], [UNLIT_NAME]⟩ khrSerializer .material
    (.mk none [(UNLIT_NAME, .obj [])] none (some (.mk emptyProp)) none none) [] [] []
    (.unlit (.mk emptyProp)) ⟨UNLIT_NAME, .obj []⟩ rfl ⟨[], rfl⟩ rfl (by decide)

/-- C5 counterexample: the attribute value `-1` is negative — not a
non-negative integer — yet `DeserializeDracoMeshCompression` succeeds,
storing the two's-complement wraparound value `4294967295`. -/
theorem claim_C5_counterexample :
    (-1 : ℚ) < 0 ∧
    DeserializeDracoMeshCompression
        (.obj [("attributes", .obj [("POSITION", .num (-1 : ℚ))])]) khrDeserializer =
      .ok (.dracoMeshCompression (.mk "" [("POSITION", 4294967295)] emptyProp)) :=
  ⟨by norm_num, rfl⟩

/-- C5 (amended): `DeserializeDracoMeshCompression` fails with a
schema-violation error when a present `"attributes"` member is not a JSON
object, and rejects an attribute value exactly when it fails rapidjson's
`IsInt` — i.e. when it is not an integer in `[-2^31, 2^31)`; in particular a
string value is rejected, but a *negative* in-range integer is accepted and
stored with two's-complement uint32 wraparound rather than rejected. -/
theorem claim_C5 :
    (∀ (d : ExtensionDeserializer) (ms : List (String × Json)) (v : Json),
      findMember "bufferView" ms = none → findMember "attributes" ms = some v →
      (∀ avs, v ≠ .obj avs) →
      DeserializeDracoMeshCompression (.obj ms) d = .error .attributesNotObject) ∧
    (∀ (d : ExtensionDeserializer) (ms pre rest : List (String × Json))
      (n : String) (v : Json),
      findMember "bufferView" ms = none →
      findMember "attributes" ms = some (.obj (pre ++ (n, v) :: rest)) →
      (∀ a ∈ pre, a.2.isInt = true) → v.isInt = false →
      DeserializeDracoMeshCompression (.obj ms) d = .error (.attributeNotInt n)) ∧
    (∀ (d : ExtensionDeserializer) (n : String) (i : ℤ),
      -(2 ^ 31) ≤ i → i < 0 →
      DeserializeDracoMeshCompression
          (.obj [("attributes", .obj [(n, .num (i : ℚ))])]) d =
        .ok (.dracoMeshCompression (.mk "" [(n, uint32OfInt i)] emptyProp))) := by
  refine ⟨fun d ms v h1 h2 h3 => deserializeDraco_attrsNotObject d ms v h1 h2 h3,
    fun d ms pre rest n v h1 h2 hpre hv =>
      deserializeDraco_attrErr d ms _ _ h1 h2 (readDracoAttrs_err n v hv pre [] rest hpre),
    ?_⟩
  intro d n i h1 h2
  have hbv : findMember "bufferView" [("attributes", Json.obj [(n, Json.num (i : ℚ))])] =
      none := by simp [findMember_cons, findMember_nil]
  have ham : findMember "attributes" [("attributes", Json.obj [(n, Json.num (i : ℚ))])] =
      some (.obj [(n, .num (i : ℚ))]) := by simp [findMember_cons, findMember_nil]
  have hint : (Json.num (i : ℚ)).isInt = true := by
    simp [Json.isInt, Rat.den_intCast, Rat.num_intCast]
    omega
  have hattrs : readDracoAttrs [] [(n, Json.num (i : ℚ))] =
      .ok [(n, uint32OfInt i)] := by
    simp [readDracoAttrs, hint, emplaceAttr, Rat.num_intCast]
  have hPP : ParseProperty d .dracoMeshCompression
      [("attributes", Json.obj [(n, Json.num (i : ℚ))])] emptyProp = .ok emptyProp := by
    have h3 := parseProperty_no_ext d .dracoMeshCompression
      [("attributes", Json.obj [(n, Json.num (i : ℚ))])] (by simp [findMember_cons, findMember_nil])
    simpa [findMember_cons, emptyProp] using h3
  exact deserializeDraco_char_noBV d _ _ _ _ hbv ham hattrs hPP

/-- A witness for `claim_C5`: a non-object `"attributes"` value, the
spec's `{"attributes":{"POSITION":"abc"}}` input, and the negative
attribute `-1`. -/
theorem claim_C5_witness :
    DeserializeDracoMeshCompression (.obj [("attributes", .num 0)]) khrDeserializer =
      .error .attributesNotObject ∧
    DeserializeDracoMeshCompression
        (.obj [("attributes", .obj [("POSITION", .str "abc")])]) khrDeserializer =
      .error (.attributeNotInt "POSITION") ∧
    DeserializeDracoMeshCompression
        (.obj [("attributes", .obj [("POSITION", .num ((-1 : ℤ) : ℚ))])]) khrDeserializer =
      .ok (.dracoMeshCompression (.mk "" [("POSITION", uint32OfInt (-1))] emptyProp)) :=
  ⟨claim_C5.1 khrDeserializer _ _ rfl rfl (fun avs h => nomatch h),
   claim_C5.2.1 khrDeserializer _ [] [] "POSITION" (.str "abc") rfl rfl
     (by simp) rfl,
   claim_C5.2.2 khrDeserializer "POSITION" (-1) (by decide) (by decide)⟩

/-- `DeserializeTextureTransform` with all optional members absent yields the
defaults `offset=(0,0)`, `rotation=0`, `scale=(1,1)`, `texCoord=0`. -/
theorem deserializeTT_defaults (d : ExtensionDeserializer) (ms : List (String × Json))
    (hoff : findMember "offset" ms = none)
    (hrot : findMember "rotation" ms = none)
    (hsc : findMember "scale" ms = none)
    (htc : findMember "texCoord" ms = none)
    (hext : findMember "extensions" ms = none) :
    DeserializeTextureTransform (.obj ms) d =
      .ok (.textureTransform (.mk (0, 0) 0 (1, 1) 0
        (.mk (findMember "extras" ms) [] none none none none))) := by
  have hPP := parseProperty_no_ext d .textureTransform ms hext
  simp [DeserializeTextureTransform, Json.asObjMembers, hoff, hsc,
    getMemberDoubleOrDefault_none 0 hrot, getMemberUIntOrDefault_none 0 htc,
    hPP, Bind.bind, Except.bind]

/-- `DeserializeTextureTransform` with length-2 `"offset"` and `"scale"`
arrays parses them componentwise. -/
theorem deserializeTT_len2 (d : ExtensionDeserializer) (ms : List (String × Json))
    (a b c e2 : ℚ)
    (hoff : findMember "offset" ms = some (.arr [.num a, .num b]))
    (hrot : findMember "rotation" ms = none)
    (hsc : findMember "scale" ms = some (.arr [.num c, .num e2]))
    (htc : findMember "texCoord" ms = none)
    (hext : findMember "extensions" ms = none) :
    DeserializeTextureTransform (.obj ms) d =
      .ok (.textureTransform (.mk (a, b) 0 (c, e2) 0
        (.mk (findMember "extras" ms) [] none none none none))) := by
  have hPP := parseProperty_no_ext d .textureTransform ms hext
  simp [DeserializeTextureTransform, Json.asObjMembers, Json.asArrElems, hoff, hsc,
    getMemberDoubleOrDefault_none 0 hrot, getMemberUIntOrDefault_none 0 htc,
    listGetDoubles, Json.getDouble, vecAt, hPP, Bind.bind, Except.bind]

/-- C6: `DeserializeTextureTransform` fails with a schema-violation error
when a present `"offset"` or `"scale"` array does not have length exactly
2; when both are absent parsing proceeds with the defaults `offset=(0,0)`,
`scale=(1,1)`, and when both have length 2 parsing proceeds with the given
components. -/
theorem claim_C6 :
    (∀ (d : ExtensionDeserializer) (ms : List (String × Json)) (xs : List Json),
      findMember "offset" ms = some (.arr xs) → xs.length ≠ 2 →
      DeserializeTextureTransform (.obj ms) d = .error (.wrongSize "offset")) ∧
    (∀ (d : ExtensionDeserializer) (ms : List (String × Json)) (xs : List Json),
      (findMember "offset" ms = none ∨
        ∃ a b, findMember "offset" ms = some (.arr [.num a, .num b])) →
      (findMember "rotation" ms = none ∨
        ∃ q, findMember "rotation" ms = some (.num q)) →
      findMember "scale" ms = some (.arr xs) → xs.length ≠ 2 →
      DeserializeTextureTransform (.obj ms) d = .error (.wrongSize "scale")) ∧
    (∀ (d : ExtensionDeserializer) (ms : List (String × Json)),
      findMember "offset" ms = none → findMember "rotation" ms = none →
      findMember "scale" ms = none → findMember "texCoord" ms = none →
      findMember "extensions" ms = none →
      DeserializeTextureTransform (.obj ms) d =
        .ok (.textureTransform (.mk (0, 0) 0 (1, 1) 0
          (.mk (findMember "extras" ms) [] none none none none)))) ∧
    (∀ (d : ExtensionDeserializer) (ms : List (String × Json)) (a b c e2 : ℚ),
      findMember "offset" ms = some (.arr [.num a, .num b]) →
      findMember "rotation" ms = none →
      findMember "scale" ms = some (.arr [.num c, .num e2]) →
      findMember "texCoord" ms = none → findMember "extensions" ms = none →
      DeserializeTextureTransform (.obj ms) d =
        .ok (.textureTransform (.mk (a, b) 0 (c, e2) 0
          (.mk (findMember "extras" ms) [] none none none none)))) :=
  ⟨fun d ms xs h1 h2 => deserializeTT_offset_err d ms xs h1 h2,
   fun d ms xs h1 h2 h3 h4 => deserializeTT_scale_err d ms xs h1 h2 h3 h4,
   fun d ms h1 h2 h3 h4 h5 => deserializeTT_defaults d ms h1 h2 h3 h4 h5,
   fun d ms a b c e2 h1 h2 h3 h4 h5 => deserializeTT_len2 d ms a b c e2 h1 h2 h3 h4 h5⟩

/-- A witness for `claim_C6`: the spec's `{"offset":[1.0]}` input, an empty
`"scale"` array, the all-defaults input `{}`, and a fully explicit
length-2 input. -/
theorem claim_C6_witness :
    DeserializeTextureTransform (.obj [("offset", .arr [.num 1])]) khrDeserializer =
      .error (.wrongSize "offset") ∧
    DeserializeTextureTransform (.obj [("scale", .arr [])]) khrDeserializer =
      .error (.wrongSize "scale") ∧
    DeserializeTextureTransform (.obj []) khrDeserializer =
      .ok (.textureTransform (.mk (0, 0) 0 (1, 1) 0
        (.mk none [] none none none none))) ∧
    DeserializeTextureTransform
        (.obj [("offset", .arr [.num 1, .num 2]), ("scale", .arr [.num 3, .num 4])])
        khrDeserializer =
      .ok (.textureTransform (.mk (1, 2) 0 (3, 4) 0
        (.mk none [] none none none none))) :=
  ⟨claim_C6.1 khrDeserializer [("offset", .arr [.num 1])] [.num 1] rfl (by decide),
   claim_C6.2.1 khrDeserializer [("scale", .arr [])] [] (Or.inl rfl) (Or.inl rfl)
     rfl (by decide),
   claim_C6.2.2.1 khrDeserializer [] rfl rfl rfl rfl rfl,
   claim_C6.2.2.2 khrDeserializer
     [("offset", .arr [.num 1, .num 2]), ("scale", .arr [.num 3, .num 4])]
     1 2 3 4 rfl rfl rfl rfl rfl⟩

/-- C7: serializing a `PBRSpecularGlossiness` whose every field equals its
default produces a JSON object with zero members — no field,
`"extensions"`, or `"extras"` member is emitted — for any document and any
serializer registry. -/
theorem claim_C7 :
    ∀ (doc : Document) (s : ExtensionSerializer),
      SerializePBRSpecGloss defaultPBRSpecGloss doc s = .ok (.obj []) :=
  fun _ _ => rfl

/-- C9: `Unlit::IsEqual` accepts exactly the arguments whose runtime kind is
`Unlit`, irrespective of any base-property state on either side; hence any
two `Unlit` instances compare equal. -/
theorem claim_C9 :
    (∀ (u : Unlit) (rhs : Extension), Unlit.IsEqual u rhs = true ↔
      ∃ v, rhs = .unlit v) ∧
    (∀ u v : Unlit, Extension.IsEqual (.unlit u) (.unlit v) = true) := by
  constructor
  · intro u rhs
    cases rhs <;> simp [Unlit.IsEqual]
  · intro u v
    rfl

/-- C10: `DeserializePBRSpecGloss` performs no length validation on a
present `"diffuseFactor"` or `"specularFactor"` array: arrays shorter than
4 (resp. 3) elements reach the out-of-bounds error branch of the unchecked
index reads, while longer arrays are accepted with every element past index
3 (resp. 2) silently ignored. -/
theorem claim_C10 :
    (∀ (d : ExtensionDeserializer) (l : List ℚ), l.length < 4 →
      DeserializePBRSpecGloss (.obj [("diffuseFactor", .arr (l.map Json.num))]) d =
        .error .outOfBounds) ∧
    (∀ (d : ExtensionDeserializer) (l : List ℚ), l.length < 3 →
      DeserializePBRSpecGloss (.obj [("specularFactor", .arr (l.map Json.num))]) d =
        .error .outOfBounds) ∧
    (∀ (d : ExtensionDeserializer) (a b c dd : ℚ) (rest : List ℚ),
      DeserializePBRSpecGloss
          (.obj [("diffuseFactor", .arr ((a :: b :: c :: dd :: rest).map Json.num))]) d =
        .ok (.pbrSpecularGlossiness
          (.mk (a, b, c, dd) defaultTexInfo (1, 1, 1) 1 defaultTexInfo emptyProp))) := by
  refine ⟨?_, ?_, ?_⟩
  · intro d l h
    have hdf : findMember "diffuseFactor"
        [("diffuseFactor", Json.arr (l.map Json.num))] =
        some (.arr (l.map Json.num)) := rfl
    simp only [DeserializePBRSpecGloss, Json.asObjMembers]
    rw [exc_bind_ok]
    try simp only []
    rw [memberOrElse_some readColor4 _ hdf]
    rw [readColor4_short l h]
    rw [exc_bind_err]
  · intro d l h
    have hdf : findMember "diffuseFactor"
        [("specularFactor", Json.arr (l.map Json.num))] = none := rfl
    have hdt : findMember "diffuseTexture"
        [("specularFactor", Json.arr (l.map Json.num))] = none := rfl
    have hsf : findMember "specularFactor"
        [("specularFactor", Json.arr (l.map Json.num))] =
        some (.arr (l.map Json.num)) := rfl
    simp only [DeserializePBRSpecGloss, Json.asObjMembers]
    rw [exc_bind_ok]
    try simp only []
    rw [memberOrElse_none readColor4 _ hdf]
    rw [exc_bind_ok]
    try simp only []
    rw [memberOrElse_none _ _ hdt]
    rw [exc_bind_ok]
    try simp only []
    rw [memberOrElse_some readColor3 _ hsf]
    rw [readColor3_short l h]
    rw [exc_bind_err]
  · intro d a b c dd rest
    have hdf : findMember "diffuseFactor"
        [("diffuseFactor", Json.arr ((a :: b :: c :: dd :: rest).map Json.num))] =
        some (.arr ((a :: b :: c :: dd :: rest).map Json.num)) := rfl
    have hdt : findMember "diffuseTexture"
        [("diffuseFactor", Json.arr ((a :: b :: c :: dd :: rest).map Json.num))] =
        none := rfl
    have hsf : findMember "specularFactor"
        [("diffuseFactor", Json.arr ((a :: b :: c :: dd :: rest).map Json.num))] =
        none := rfl
    have hgf : findMember "glossinessFactor"
        [("diffuseFactor", Json.arr ((a :: b :: c :: dd :: rest).map Json.num))] =
        none := rfl
    have hst : findMember "specularGlossinessTexture"
        [("diffuseFactor", Json.arr ((a :: b :: c :: dd :: rest).map Json.num))] =
        none := rfl
    have hex : findMember "extensions"
        [("diffuseFactor", Json.arr ((a :: b :: c :: dd :: rest).map Json.num))] =
        none := rfl
    exact deserializePBR_char d
      [("diffuseFactor", .arr ((a :: b :: c :: dd :: rest).map Json.num))]
      (a, b, c, dd) defaultTexInfo (1, 1, 1) 1 defaultTexInfo emptyProp
      (by rw [memberOrElse_some readColor4 _ hdf]; exact readColor4_long a b c dd rest)
      (memberOrElse_none _ _ hdt)
      (memberOrElse_none _ _ hsf)
      (getMemberDoubleOrDefault_none 1 hgf)
      (memberOrElse_none _ _ hst)
      (by simpa [emptyProp, findMember_cons, findMember_nil] using
        parseProperty_no_ext d .pbrSpecularGlossiness _ hex)

/-- A witness for `claim_C10`: a two-element diffuse factor and a
one-element specular factor fail, while a five-element diffuse factor is
accepted with the fifth element ignored. -/
theorem claim_C10_witness :
    DeserializePBRSpecGloss
        (.obj [("diffuseFactor", .arr ([(1 : ℚ), 2].map Json.num))]) khrDeserializer =
      .error .outOfBounds ∧
    DeserializePBRSpecGloss
        (.obj [("specularFactor", .arr ([(1 : ℚ)].map Json.num))]) khrDeserializer =
      .error .outOfBounds ∧
    DeserializePBRSpecGloss
        (.obj [("diffuseFactor", .arr (((1 : ℚ) :: 2 :: 3 :: 4 :: [5]).map Json.num))])
        khrDeserializer =
      .ok (.pbrSpecularGlossiness
        (.mk (1, 2, 3, 4) defaultTexInfo (1, 1, 1) 1 defaultTexInfo emptyProp)) :=
  ⟨claim_C10.1 khrDeserializer [1, 2] (by decide),
   claim_C10.2.1 khrDeserializer [1] (by decide),
   claim_C10.2.2 khrDeserializer 1 2 3 4 [5]⟩

/-- C2 counterexample: the valid-per-data-model Draco instance with
attribute id `2^31` serializes fine, but re-parsing the serialized output
fails rapidjson's `IsInt` check — the full cycle is not an identity. -/
theorem claim_C2_counterexample :
    ValidDracoBase ⟨[], [], []⟩ (.mk "" [("POSITION", 2 ^ 31)] emptyProp) ∧
    (SerializeDracoMeshCompression (.mk "" [("POSITION", 2 ^ 31)] emptyProp)
        ⟨[], [], []⟩ khrSerializer >>=
      fun j => DeserializeDracoMeshCompression j khrDeserializer) =
      .error (.attributeNotInt "POSITION") :=
  ⟨⟨⟨by decide, by decide, rfl, rfl, rfl, rfl⟩, by decide, by decide, Or.inl rfl⟩, rfl⟩

/-- C2 (amended): for each of the four KHR extension kinds and every valid
instance — where, for `DracoMeshCompression`, validity additionally
requires every attribute id to be below `2^31` so that the serialized value
survives the deserializer's `IsInt` check (ids in `[2^31, 2^32)` serialize
but fail re-parse) — one full serialize-then-parse cycle through the KHR
registries is an identity up to the kind's `IsEqual` comparison. -/
theorem claim_C2 :
    (∀ (doc : Document) (t : TextureTransform), ValidTextureTransform t →
      ∃ e2, (SerializeTextureTransform t doc khrSerializer >>=
          fun j => DeserializeTextureTransform j khrDeserializer) = .ok e2 ∧
        Extension.IsEqual (.textureTransform t) e2 = true) ∧
    (∀ (doc : Document) (un : Unlit), ValidUnlit un →
      ∃ e2, (SerializeUnlit un doc khrSerializer >>=
          fun j => DeserializeUnlit j khrDeserializer) = .ok e2 ∧
        Extension.IsEqual (.unlit un) e2 = true) ∧
    (∀ (doc : Document) (dr : DracoMeshCompression), ValidDraco doc dr →
      ∃ e2, (SerializeDracoMeshCompression dr doc khrSerializer >>=
          fun j => DeserializeDracoMeshCompression j khrDeserializer) = .ok e2 ∧
        Extension.IsEqual (.dracoMeshCompression dr) e2 = true) ∧
    (∀ (doc : Document) (sg : PBRSpecularGlossiness), ValidPBRSpecGloss doc sg →
      ∃ e2, (SerializePBRSpecGloss sg doc khrSerializer >>=
          fun j => DeserializePBRSpecGloss j khrDeserializer) = .ok e2 ∧
        Extension.IsEqual (.pbrSpecularGlossiness sg) e2 = true) := by
  refine ⟨?_, ?_, ?_, ?_⟩
  · intro doc t hv
    obtain ⟨j, hs, hp⟩ := tt_roundtrip doc khrSerializer khrDeserializer
      (khrOnly_with (khrDeserializerWith emptyDeserializer)) t hv
    exact ⟨.textureTransform t, by rw [hs, exc_bind_ok, hp], ttEqData_refl t hv⟩
  · intro doc un hv
    obtain ⟨j, hs, hp⟩ := unlit_roundtrip doc khrSerializer khrDeserializer
      (khrOnly_with (khrDeserializerWith emptyDeserializer)) un hv
    exact ⟨.unlit un, by rw [hs, exc_bind_ok, hp], rfl⟩
  · intro doc dr hv
    obtain ⟨j, hs, hp⟩ := draco_roundtrip doc khrSerializer khrDeserializer
      (khrOnly_with (khrDeserializerWith emptyDeserializer)) dr hv
    exact ⟨.dracoMeshCompression dr, by rw [hs, exc_bind_ok, hp],
      dracoEqData_refl doc dr hv⟩
  · intro doc sg hv
    obtain ⟨j, hs, hp⟩ := pbr_roundtrip doc (khrSerializerWith emptySerializer)
      (khrDeserializerWith emptyDeserializer)
      (khrOnly_with emptyDeserializer) sg hv
    refine ⟨.pbrSpecularGlossiness sg, ?_, pbrEqData_refl doc sg hv⟩
    show (SerializePBRSpecGloss sg doc (khrSerializerWith (khrSerializerWith
        emptySerializer)) >>=
      fun j => DeserializePBRSpecGloss j (khrDeserializerWith (khrDeserializerWith
        emptyDeserializer))) = .ok (.pbrSpecularGlossiness sg)
    rw [hs, exc_bind_ok, hp]

/-- A witness for `claim_C2`: concrete valid instances of all four kinds —
a texture transform with extras and a vendor extension, an empty unlit, a
Draco instance with a resolving buffer view and two in-range attributes,
and a specular-glossiness instance with a resolving diffuse texture. -/
theorem claim_C2_witness :
    (∃ e2, (SerializeTextureTransform
          (.mk (1/2, 3) 1 (4, 5) 7
            (.mk (some (.str "note")) [("VENDOR_a", .null)] none none none none))
          ⟨[], [], []⟩ khrSerializer >>=
        fun j => DeserializeTextureTransform j khrDeserializer) = .ok e2 ∧
      Extension.IsEqual (.textureTransform
        (.mk (1/2, 3) 1 (4, 5) 7
          (.mk (some (.str "note")) [("VENDOR_a", .null)] none none none none)))
        e2 = true) ∧
    (∃ e2, (SerializeUnlit (.mk emptyProp) ⟨[], [], []⟩ khrSerializer >>=
        fun j => DeserializeUnlit j khrDeserializer) = .ok e2 ∧
      Extension.IsEqual (.unlit (.mk emptyProp)) e2 = true) ∧
    (∃ e2, (SerializeDracoMeshCompression
          (.mk "0" [("POSITION", 9), ("NORMAL", 5)] emptyProp)
          ⟨[], ["0"], []⟩ khrSerializer >>=
        fun j => DeserializeDracoMeshCompression j khrDeserializer) = .ok e2 ∧
      Extension.IsEqual (.dracoMeshCompression
        (.mk "0" [("POSITION", 9), ("NORMAL", 5)] emptyProp)) e2 = true) ∧
    (∃ e2, (SerializePBRSpecGloss
          (.mk (2, 3, 4, 5) (.mk "0" 2 emptyProp) (6, 7, 8) (1/2) defaultTexInfo
            (.mk (some (.bool true)) [("VENDOR_b", .num 9)] none none none none))
          ⟨["0"], [], []⟩ khrSerializer >>=
        fun j => DeserializePBRSpecGloss j khrDeserializer) = .ok e2 ∧
      Extension.IsEqual (.pbrSpecularGlossiness
        (.mk (2, 3, 4, 5) (.mk "0" 2 emptyProp) (6, 7, 8) (1/2) defaultTexInfo
          (.mk (some (.bool true)) [("VENDOR_b", .num 9)] none none none none)))
        e2 = true) :=
  ⟨claim_C2.1 ⟨[], [], []⟩
      (.mk (1/2, 3) 1 (4, 5) 7
        (.mk (some (.str "note")) [("VENDOR_a", .null)] none none none none))
      ⟨⟨by decide, by decide, rfl, rfl, rfl, rfl⟩, by decide⟩,
   claim_C2.2.1 ⟨[], [], []⟩ (.mk emptyProp)
      ⟨by decide, by decide, rfl, rfl, rfl, rfl⟩,
   claim_C2.2.2.1 ⟨[], ["0"], []⟩
      (.mk "0" [("POSITION", 9), ("NORMAL", 5)] emptyProp)
      ⟨⟨⟨by decide, by decide, rfl, rfl, rfl, rfl⟩, by decide, by decide,
        Or.inr ⟨by decide, by decide⟩⟩, by decide⟩,
   claim_C2.2.2.2 ⟨["0"], [], []⟩
      (.mk (2, 3, 4, 5) (.mk "0" 2 emptyProp) (6, 7, 8) (1/2) defaultTexInfo
        (.mk (some (.bool true)) [("VENDOR_b", .num 9)] none none none none))
      ⟨⟨by decide, by decide, rfl, rfl, rfl, rfl⟩,
       Or.inr ⟨by decide, by decide, by decide,
         ⟨by decide, by decide, rfl, rfl, rfl, fun t ht => nomatch ht⟩⟩,
       Or.inl (by decide)⟩⟩
